import Mathlib

/-!
Verification development for the CK3-history-extractor repository.

The program under study is a Python tool that parses a large textual
save-game document and recursively materialises an object graph of
characters, titles, cultures, faiths, houses/dynasties and memories.
We shallowly embed the code of `src/src/CK3_history_extractor.py`
(the current variant; the top-level legacy copy and the lookup-table
generator are collaborators) as executable Lean definitions:

  - Python strings are modeled as lists of Unicode code points
    (`PyStr := List Nat`); `str.replace`, `str.split`, `str.lower`,
    `str.capitalize`, slicing `[1:-1]`, and the shapes of the regular
    expressions the code uses (`pre(.*?)post` patterns under `re.S`)
    are given as recursive functions on `PyStr`.
  - The document is modeled as a structure (`Doc`) holding, for every
    id-interpolated document-level regex of the source, the list of
    its textual matches in document order, plus the raw text and the
    external trait lookup table.  All block-level field extraction is
    performed on the raw match text by the regex models.
  - The global registries (`knownChars`, `knownTitles`, `knownCuls`,
    `knownFaiths`, `knownDyns`) and object identity are modeled by an
    explicit state (`St`): each constructed entity is allocated a slot
    in a per-kind heap, references between objects are heap indices,
    and a registry maps an id to the index of the object registered
    for it.  Two references are "the same object" iff the indices are
    equal.
  - Python exceptions and fuel exhaustion are both modeled by an
    `Option` result; the state reached so far is always returned, as
    mutated globals survive a raised exception.  Constructors take a
    fuel argument so that genuinely divergent recursions (which raise
    `RecursionError` in Python only at an implementation-defined
    depth) are represented by returning `none` at every fuel.
  - Recursions that consume text are driven by a fuel initialised to
    the text length, kept structural so that every definition reduces
    inside the kernel; the fuel never runs out for the initial value.
-/

/-! ## Python string primitives -/

/-- A Python string: the list of its Unicode code points. -/
abbrev PyStr := List Nat

/-- Code points of a Lean string literal, for writing `PyStr` constants. -/
def pys (s : String) : PyStr := s.data.map Char.toNat

/-- Position of the first occurrence of `pat` in `s` (`str.find`); `none` if absent.
For an empty `pat` this is `some 0`, as in Python. -/
def firstIndexOf (pat : PyStr) : PyStr → Option Nat
  | [] => if pat = [] then some 0 else none
  | s@(_ :: t) => if pat.isPrefixOf s then some 0 else (firstIndexOf pat t).map (· + 1)

/-- Python `pat in s` substring test. -/
def pyContains (pat : PyStr) (s : PyStr) : Bool := (firstIndexOf pat s).isSome

/-- Worker for `pyReplace`, structural on a fuel that dominates `s.length`
(each step consumes at least one character, so the `0` case is unreachable
from `pyReplace`). -/
def pyReplaceAux : Nat → PyStr → PyStr → PyStr → PyStr
  | 0, _, _, _ => []
  | fuel + 1, s, old, new =>
    match s with
    | [] => []
    | c :: rest =>
      if old ≠ [] ∧ old.isPrefixOf (c :: rest) then
        new ++ pyReplaceAux fuel ((c :: rest).drop old.length) old new
      else
        c :: pyReplaceAux fuel rest old new

/-- Python `s.replace(old, new)` for a non-empty `old`: replaces every
non-overlapping occurrence, scanning left to right.  (The source never
calls `replace` with an empty pattern; for `old = []` this is the identity.) -/
def pyReplace (s old new : PyStr) : PyStr := pyReplaceAux s.length s old new

/-- Python `s.split(sep)` for a single-character separator `sep`
(the source only splits on one-character strings): keeps empty pieces,
and `''.split(sep) = ['']`. -/
def pySplitChar (sep : Nat) : PyStr → List PyStr
  | [] => [[]]
  | c :: t =>
    if c = sep then [] :: pySplitChar sep t
    else
      match pySplitChar sep t with
      | [] => [[c]]
      | h :: r => (c :: h) :: r

/-- Python `s.split(sep, 1)[1]` (maxsplit 1): the piece after the first
separator, `none` when the separator does not occur (in which case Python's
`fields[1]` raises `IndexError`). -/
def pySplitOnceRest (sep : Nat) : PyStr → Option PyStr
  | [] => none
  | c :: t => if c = sep then some t else pySplitOnceRest sep t

/-- Python `s.split(sep, 1)[0]`: the piece before the first separator
(the whole string when the separator does not occur). -/
def pySplitOnceHead (sep : Nat) : PyStr → PyStr
  | [] => []
  | c :: t => if c = sep then [] else c :: pySplitOnceHead sep t

/-- Python list slice `l[1:-1]`, used for the source's "drop the leading and
trailing empty token" convention on bracketed lists. -/
def dropEnds (l : List PyStr) : List PyStr := (l.drop 1).dropLast

/-- Worker for `pyFindAllCapM`, structural on a fuel dominating `s.length`. -/
def pyFindAllCapAux (mk : Nat) (pre post : PyStr) : Nat → PyStr → List PyStr
  | 0, _ => []
  | _ + 1, [] => []
  | fuel + 1, c :: t =>
    if post = [] then []
    else if pre.isPrefixOf (c :: t) then
      let rest := (c :: t).drop pre.length
      match firstIndexOf post (rest.drop mk) with
      | some k =>
        rest.take (mk + k) ::
          pyFindAllCapAux mk pre post fuel (rest.drop (mk + k + post.length))
      | none => pyFindAllCapAux mk pre post fuel t
    else pyFindAllCapAux mk pre post fuel t

/-- All captures of the regex `pre(.*?)post` (resp. `pre(.+?)post` when
`mk = 1`) over `s` under `re.S`, in document order: `re.findall` semantics.
At each position the literal `pre` is tried; on success the capture extends
to the earliest occurrence of the literal `post` at distance at least `mk`,
and scanning resumes after the match (matches do not overlap).  `pre` and
`post` are never empty in the source's patterns; for safety an empty `post`
yields no matches here. -/
def pyFindAllCapM (mk : Nat) (pre post s : PyStr) : List PyStr :=
  pyFindAllCapAux mk pre post s.length s

/-- Captures of `pre(.*?)post` (`re.findall` with a `(.*?)` group). -/
def pyFindAllCap (pre post s : PyStr) : List PyStr := pyFindAllCapM 0 pre post s

/-- Captures of `pre(.+?)post` (`re.findall` with a `(.+?)` group). -/
def pyFindAllCapP (pre post s : PyStr) : List PyStr := pyFindAllCapM 1 pre post s

/-- ASCII lower-casing of one code point, the model of Python `str.lower`
on the characters the source manipulates. -/
def lowNat (c : Nat) : Nat := if 65 ≤ c ∧ c ≤ 90 then c + 32 else c

/-- ASCII upper-casing of one code point. -/
def upNat (c : Nat) : Nat := if 97 ≤ c ∧ c ≤ 122 then c - 32 else c

/-- Python `s.lower()`. -/
def pyLower (s : PyStr) : PyStr := s.map lowNat

/-- Python `s.capitalize()`: first character upper-cased, the rest lower-cased. -/
def pyCapitalize : PyStr → PyStr
  | [] => []
  | c :: t => upNat c :: t.map lowNat

/-- Worker for `pyCount`, structural on a fuel dominating `s.length`. -/
def pyCountAux (sub : PyStr) : Nat → PyStr → Nat
  | 0, _ => 0
  | _ + 1, [] => 0
  | fuel + 1, c :: t =>
    if sub ≠ [] ∧ sub.isPrefixOf (c :: t) then
      1 + pyCountAux sub fuel ((c :: t).drop sub.length)
    else pyCountAux sub fuel t

/-- Python `data.count(sub)`: number of non-overlapping occurrences. -/
def pyCount (sub s : PyStr) : Nat := pyCountAux sub s.length s

/-- Python `int(s)` on a decimal digit string, `none` when the text is not a
plain nonempty digit sequence (where Python raises `ValueError`). -/
def pyToNat : PyStr → Option Nat
  | [] => none
  | ds => ds.foldl (fun acc c =>
      match acc with
      | none => none
      | some n => if 48 ≤ c ∧ c ≤ 57 then some (n * 10 + (c - 48)) else none)
      (some 0)

/-! Sanity checks of the string model on concrete values. -/

example : pySplitChar 32 (pys (" a b ")) = [[], pys ("a"), pys ("b"), []] := by decide

example : dropEnds (pySplitChar 32 (pys (" a b "))) = [pys ("a"), pys ("b")] := by decide

example : pyReplace (pys ("a_b_c")) (pys ("_")) (pys (" ")) = pys ("a b c") := by decide

example : pyFindAllCap (pys ("k=\x22")) (pys ("\x22")) (pys ("x k=\x22ab\x22 k=\x22c\x22"))
    = [pys ("ab"), pys ("c")] := by decide

example : pyToNat (pys ("107")) = some 107 := by decide

example : pyContains (pys ("b_")) (pys ("c_ab_c")) = true := by decide

/-! ## Display-name normalizer and trait lookup (source lines 609-623) -/

/-- Embedding of `gameStringToRead` (source lines 613-623): the chain of
`str.replace` calls stripping symbolic markers, then underscores to spaces,
then `.lower().capitalize()`. -/
def gameStringToRead (s : PyStr) : PyStr :=
  let s1 := pyReplace s (pys ("dynn_")) []
  let s2 := pyReplace s1 (pys ("_lifestyle")) []
  let s3 := pyReplace s2 (pys ("_perk")) []
  let s4 := pyReplace s3 (pys ("nick_")) []
  let s5 := pyReplace s4 (pys ("death_")) []
  let s6 := pyReplace s5 (pys ("ethos_")) []
  let s7 := pyReplace s6 (pys ("heritage_")) []
  let s8 := pyReplace s7 (pys ("martial_custom_")) []
  let s9 := pyReplace s8 (pys ("tradition_")) []
  let s10 := pyReplace s9 (pys ("fp2_")) []
  let s11 := pyReplace s10 (pys ("fp1_")) []
  let s12 := pyReplace s11 (pys ("language_")) []
  let s13 := pyReplace s12 (pys ("_1")) []
  let s14 := pyReplace s13 (pys ("_2")) []
  let s15 := pyReplace s14 (pys ("doctrine_")) []
  let s16 := pyReplace s15 (pys ("special_")) []
  let s17 := pyReplace s16 (pys ("is_")) []
  let s18 := pyReplace s17 (pys ("_")) (pys (" "))
  pyCapitalize (pyLower s18)

/-- Model of `linecache.getline(file, n)`: the 1-based `n`-th line of the
line-indexed lookup file, including its trailing newline; the empty string
for any out-of-range line number (`linecache` never raises). -/
def pyGetline (lines : List PyStr) (n : Nat) : PyStr :=
  if 1 ≤ n ∧ n ≤ lines.length then lines.getD (n - 1) [] ++ [10] else []

/-- Embedding of `getTrait` (source lines 609-611): look up line
`traitId + 1` of the trait lookup table and normalize it. -/
def getTrait (table : List PyStr) (traitId : Nat) : PyStr :=
  gameStringToRead (pyGetline table (traitId + 1))

/-! ## The document model

The source locates blocks with id-interpolated regular expressions over the
whole save text (`re.findall`).  `Doc` packages, for each such document-level
pattern, the function from an id to the pattern's list of textual matches in
document order, together with the raw text (used by `str.count`) and the
external trait lookup table.  Field extraction inside a located block is
modeled on the block text itself by the regex models above. -/

structure Doc where
  /-- The whole save text (used by the `allData.count(...)` calls). -/
  raw : PyStr
  /-- Lines of the external file `trait_indexes.lookup`. -/
  traitTable : List PyStr
  /-- Matches of `\n<id>={\n\tfirst_name=.+?\n}` (the character locator). -/
  charCands : PyStr → List PyStr
  /-- Matches of `\n<id>={.+?\n}` (the title locator). -/
  titleCands : PyStr → List PyStr
  /-- Matches of `\n<id>={\n\t.+?\n}` (the house and dynasty locator). -/
  blockCands : PyStr → List PyStr
  /-- Matches of `\n\t\t<id>={(.*?)\n\t\t}` inside the `cultures={...}` region. -/
  culCands : PyStr → List PyStr
  /-- Matches of `\n\t\t<id>={(.*?)\n\t\t}` inside the `faiths={...}` region. -/
  faithCands : PyStr → List PyStr
  /-- Matches of `\n\t\t<id>={.+?\n\t\t}` (the vassal-contract locator). -/
  conCands : PyStr → List PyStr
  /-- Matches of `\t\t<id>={\n\t\t\ttype=.+?\n\t\t}` (the memory locator). -/
  memCands : PyStr → List PyStr

/-! ## Block locators (source lines 558-573, 625-637) -/

/-- Embedding of `findCharData` (lines 558-560): the first match of the
first-name-anchored character pattern; `none` models the `IndexError` on
`charData[0]` when there is no match. -/
def findCharData (doc : Doc) (charid : PyStr) : Option PyStr :=
  (doc.charCands charid).head?

/-- Embedding of `findTitleData` (lines 567-569). -/
def findTitleData (doc : Doc) (titleid : PyStr) : Option PyStr :=
  (doc.titleCands titleid).head?

/-- Embedding of `findMemData` (lines 571-573). -/
def findMemData (doc : Doc) (memid : PyStr) : Option PyStr :=
  (doc.memCands memid).head?

/-- Embedding of `findVassal` (lines 562-565): locate the vassal-contract
block and extract `vassal=(.+?)\n` from it. -/
def findVassal (doc : Doc) (conId : PyStr) : Option PyStr :=
  match (doc.conCands conId).head? with
  | none => none
  | some conData => (pyFindAllCapP (pys ("vassal=")) (pys ("\n")) conData).head?

/-- The `while anchor not in cands[i]: i = i + 1; return cands[i]` scan shared
by `findHouseData` and `findDynastyData`: the first candidate containing the
anchor, `none` modeling the `IndexError` when the index runs past the end. -/
def firstWithAnchor (anchor : PyStr) (cands : List PyStr) : Option PyStr :=
  cands.find? (fun b => pyContains anchor b)

/-- Embedding of `findHouseData` (lines 625-630): first candidate block for
the id that contains the parent-dynasty field `dynasty=`. -/
def findHouseData (doc : Doc) (dynid : PyStr) : Option PyStr :=
  firstWithAnchor (pys ("dynasty=")) (doc.blockCands dynid)

/-- Embedding of `findDynastyData` (lines 632-637): first candidate block for
the id that contains the anchor field `prestige=`. -/
def findDynastyData (doc : Doc) (dynid : PyStr) : Option PyStr :=
  firstWithAnchor (pys ("prestige=")) (doc.blockCands dynid)

/-! ## Title display naming (source lines 639-658) -/

/-- Body of `getTitleName` after the block has been located: `name="..."` is
extracted first (its absence raises), then an `article` substring anywhere in
the block routes to the `article="..."` field, otherwise the key is checked
for the rank markers `b_ c_ d_ k_ e_` by substring containment, in that
order. -/
def getTitleNameRaw (rawData : PyStr) : Option PyStr :=
  let findKey := pyFindAllCap (pys ("key=\x22")) (pys ("\x22")) rawData
  let findName := pyFindAllCap (pys ("name=\x22")) (pys ("\x22")) rawData
  match findName.head? with
  | none => none
  | some baseName =>
    if pyContains (pys ("article")) rawData then
      (pyFindAllCap (pys ("article=\x22")) (pys ("\x22")) rawData).head?.map
        (fun art => art ++ baseName)
    else
      match findKey.head? with
      | none => none
      | some key =>
        if pyContains (pys ("b_")) key then some (pys ("Barony of ") ++ baseName)
        else if pyContains (pys ("c_")) key then some (pys ("County of ") ++ baseName)
        else if pyContains (pys ("d_")) key then some (pys ("Duchy of ") ++ baseName)
        else if pyContains (pys ("k_")) key then some (pys ("Kingdom of ") ++ baseName)
        else if pyContains (pys ("e_")) key then some (pys ("Empire of ") ++ baseName)
        else some baseName

/-- Embedding of `getTitleName` (lines 639-658). -/
def getTitleName (doc : Doc) (titleid : PyStr) : Option PyStr :=
  match findTitleData doc titleid with
  | none => none
  | some rawData => getTitleNameRaw rawData

/-! ## Entities, heaps and registries

Object identity and the global registries of the source (`knownChars`,
`knownTitles`, `knownCuls`, `knownFaiths`, `knownDyns`) are modeled by an
explicit state: every constructed entity occupies a slot in a per-kind heap
(`none` while the object is still being populated, mirroring a partially
initialised Python object), cross-references are heap indices, and each
registry maps an id to a heap index.  Two resolution results denote the same
Python object exactly when they are equal indices. -/

/-- A cross-reference: either an already-constructed entity (its heap index)
or a plain string (a degraded name-only value or a textual default). -/
inductive RefOr where
  | ref (i : Nat)
  | txt (s : PyStr)
deriving DecidableEq

/-- A `gMem` object (source lines 23-45).  Memories are never registered. -/
structure MemObj where
  memId : PyStr
  type : PyStr
  date : PyStr
  participants : Option (List (PyStr × RefOr))
deriving DecidableEq

/-- A `gCulture` object (source lines 162-201); `parents` are always object
references.  A conditionally assigned attribute is an `Option` field. -/
structure CulObj where
  culid : PyStr
  name : PyStr
  date : Option PyStr
  ethos : PyStr
  heritage : PyStr
  language : PyStr
  parents : List Nat
  traditions : List PyStr
  martial : PyStr
deriving DecidableEq

/-- A `gTitle` object (source lines 47-116).  A history entry is
`(date, holder, event kind)`; the Python dict is kept in insertion order. -/
structure TitleObj where
  titleid : PyStr
  key : PyStr
  name : PyStr
  history : Option (List (PyStr × RefOr × PyStr))
  de_jure : Option RefOr
  de_facto : Option RefOr
  vassals : Option (List RefOr)
deriving DecidableEq

/-- A `gFaith` object (source lines 118-160). -/
structure FaithObj where
  faid : PyStr
  name : PyStr
  fervor : PyStr
  tenets : List PyStr
  doctrines : List PyStr
  religion : PyStr
  head : Option Nat
deriving DecidableEq

/-- A `gDynn` object (source lines 205-272), for both the house
(`house=True`) and the dynasty (`house=False`) variants. -/
structure DynObj where
  dynid : PyStr
  name : PyStr
  date : PyStr
  parent : Option Nat
  members : Option Nat
  houses : Option Nat
  prestige_tot : Option PyStr
  prestige : Option PyStr
  perks : Option (List (PyStr × Nat))
  leaders : List RefOr
deriving DecidableEq

/-- A `gChar` object (source lines 274-460).  `dread` and `strength` default
to the string `"0"` (the source assigns the integer `0`; only its rendering
matters downstream). -/
structure CharObj where
  charid : PyStr
  name : PyStr
  birth : PyStr
  culture : RefOr
  faith : RefOr
  nick : PyStr
  dna : Option PyStr
  skills : List PyStr
  traits : List PyStr
  recessive : List PyStr
  spouses : Option (List RefOr)
  former : Option (List RefOr)
  children : Option (List RefOr)
  dynastyId : Option PyStr
  house : RefOr
  dead : Bool
  date : Option PyStr
  reason : Option PyStr
  liege : Option PyStr
  government : Option PyStr
  titles : Option (List RefOr)
  gold : Option PyStr
  piety : Option PyStr
  prestige : Option PyStr
  kills : Option (List RefOr)
  languages : Option (List PyStr)
  vassals : Option (List RefOr)
  dread : Option PyStr
  strength : Option PyStr
  memories : Option (List MemObj)
deriving DecidableEq

/-- An `lChar` lineage-entry object (source lines 463-492).  The source's
except-branch assigns the empty string to `perks`; it is modeled by the
empty list. -/
structure LCharObj where
  charid : PyStr
  date : PyStr
  name : PyStr
  nick : PyStr
  house : RefOr
  score : PyStr
  lifestyle : PyStr
  perks : List PyStr
deriving DecidableEq

/-- The mutable global state: per-kind heaps and the five registries. -/
structure St where
  charHeap : List (Option CharObj)
  titleHeap : List (Option TitleObj)
  culHeap : List (Option CulObj)
  faithHeap : List (Option FaithObj)
  dynHeap : List (Option DynObj)
  knownChars : List (PyStr × Nat)
  knownTitles : List (PyStr × Nat)
  knownCuls : List (PyStr × Nat)
  knownFaiths : List (PyStr × Nat)
  knownDyns : List (PyStr × Nat)
deriving DecidableEq

/-- The state at interpreter start: empty heaps, empty registries. -/
def emptySt : St := ⟨[], [], [], [], [], [], [], [], [], []⟩

/-- Registry lookup, `id in registry.keys()` / `registry[id]`. -/
def regGet : List (PyStr × Nat) → PyStr → Option Nat
  | [], _ => none
  | (k, v) :: rest, key => if k = key then some v else regGet rest key

/-- Registry update `registry[id] = object` (later entries shadow earlier
ones under `regGet`, like a Python dict assignment). -/
def regSet (k : PyStr) (v : Nat) (l : List (PyStr × Nat)) : List (PyStr × Nat) :=
  (k, v) :: l

/-- Embedding of `getChrNameOrObj` (source lines 575-583): the registered
object if the id is known, otherwise the extracted display name; `none`
models the `IndexError` when the character block or its first name is
missing. -/
def getChrNameOrObj (doc : Doc) (st : St) (charid : PyStr) : Option RefOr :=
  match regGet st.knownChars charid with
  | some r => some (RefOr.ref r)
  | none =>
    match findCharData doc charid with
    | none => none
    | some charData =>
      match (pyFindAllCap (pys ("first_name=\x22")) (pys ("\x22")) charData).head? with
      | none => none
      | some n => some (RefOr.txt (gameStringToRead (pyReplace n (pys ("_")) [])))

/-! ## Memory resolution (`gMem`, source lines 23-45) -/

/-- The participant loop of `gMem.__init__` (lines 38-45): each line is split
at `=` into a role and a character id; a known id embeds the registered
object, otherwise the character block is located and its first name embedded.
There is no try/except here: any failure propagates. -/
def memParticipantsGo (doc : Doc) (st : St) : List PyStr → Option (List (PyStr × RefOr))
  | [] => some []
  | line :: rest =>
    let fields := pySplitChar 61 line
    match fields.get? 1 with
    | none => none
    | some fid =>
      let role := gameStringToRead (fields.headD [])
      match regGet st.knownChars fid with
      | some r => (memParticipantsGo doc st rest).map (fun ps => (role, RefOr.ref r) :: ps)
      | none =>
        match findCharData doc fid with
        | none => none
        | some charData =>
          match (pyFindAllCap (pys ("first_name=\x22")) (pys ("\x22")) charData).head? with
          | none => none
          | some n =>
            (memParticipantsGo doc st rest).map
              (fun ps => (role, RefOr.txt (gameStringToRead (pyReplace n (pys ("_")) []))) :: ps)

/-- Embedding of `gMem.__init__` (lines 23-45).  Memories read the registry
but are never stored in one, and mutate no global state. -/
def resolveMem (doc : Doc) (st : St) (memid : PyStr) : Option MemObj :=
  match findMemData doc memid with
  | none => none
  | some data =>
    match (pyFindAllCap (pys ("type=\x22")) (pys ("\x22")) data).head? with
    | none => none
    | some findType =>
      let typ := gameStringToRead findType
      let date := ((pyFindAllCap (pys ("creation_date=")) (pys ("\n")) data).head?).getD []
      if pyContains (pys ("participants")) data then
        match (pyFindAllCap (pys ("participants=\x7b")) (pys ("\n\t\t\t\x7d")) data).head? with
        | none => none
        | some fp =>
          let lines := (pySplitChar 10 (pyReplace fp (pys ("\t")) [])).drop 1
          match memParticipantsGo doc st lines with
          | none => none
          | some ps => some { memId := memid, type := typ, date := date, participants := some ps }
      else
        some { memId := memid, type := typ, date := date, participants := none }

/-! ## Culture resolution (`gCulture`, source lines 162-201) -/

/-- The parent loop of `gCulture.__init__` (lines 183-187): a known parent id
embeds the registered culture, otherwise the parent is resolved recursively;
there is no try/except, so a failing parent resolution propagates. -/
def culParentsGo (resolveCul : St → PyStr → St × Option Nat) (st : St) :
    List PyStr → St × Option (List Nat)
  | [] => (st, some [])
  | p :: rest =>
    match regGet st.knownCuls p with
    | some r =>
      match culParentsGo resolveCul st rest with
      | (st', some l) => (st', some (r :: l))
      | (st', none) => (st', none)
    | none =>
      match resolveCul st p with
      | (st1, some r) =>
        match culParentsGo resolveCul st1 rest with
        | (st', some l) => (st', some (r :: l))
        | (st', none) => (st', none)
      | (st1, none) => (st1, none)

/-- Embedding of `gCulture.__init__` (lines 162-201, with `env = False` so no
file is rendered).  Note the order faithful to the source: the culture is
added to `knownCuls` only at the very end (line 195), *after* the recursion
into its parents. -/
def resolveCulture (doc : Doc) : Nat → St → PyStr → St × Option Nat
  | 0, st, _ => (st, none)
  | fuel + 1, st, culid =>
    match (doc.culCands culid).head? with
    | none => (st, none)
    | some rawData =>
      match (pyFindAllCap (pys ("name=\x22")) (pys ("\x22")) rawData).head? with
      | none => (st, none)
      | some nm =>
        let name := pyCapitalize (pyReplace nm (pys ("_")) [])
        let date := (pyFindAllCap (pys ("created=")) (pys ("\n")) rawData).head?
        match (pyFindAllCap (pys ("ethos=\x22")) (pys ("\x22")) rawData).head? with
        | none => (st, none)
        | some et =>
          let ethos := pyCapitalize (gameStringToRead et)
          match (pyFindAllCap (pys ("heritage=\x22")) (pys ("\x22")) rawData).head? with
          | none => (st, none)
          | some he =>
            let heritage := pyCapitalize (gameStringToRead he)
            match (pyFindAllCap (pys ("language=\x22")) (pys ("\x22")) rawData).head? with
            | none => (st, none)
            | some lg =>
              let language := pyCapitalize (gameStringToRead lg)
              let parentIds :=
                match (pyFindAllCap (pys ("parents=\x7b")) (pys ("\x7d")) rawData).head? with
                | some ps => dropEnds (pySplitChar 32 ps)
                | none => []
              match culParentsGo (fun s p => resolveCulture doc fuel s p) st parentIds with
              | (st1, none) => (st1, none)
              | (st1, some parents) =>
                match (pyFindAllCap (pys ("traditions=\x7b")) (pys ("\x7d")) rawData).head? with
                | none => (st1, none)
                | some tr =>
                  let traditions := (dropEnds (pySplitChar 32 tr)).map gameStringToRead
                  match (pyFindAllCap (pys ("martial_custom=\x22")) (pys ("\x22")) rawData).head? with
                  | none => (st1, none)
                  | some mc =>
                    let idx := st1.culHeap.length
                    let obj : CulObj :=
                      { culid, name, date, ethos, heritage, language, parents, traditions,
                        martial := gameStringToRead mc }
                    ({ st1 with culHeap := st1.culHeap ++ [some obj],
                                knownCuls := regSet culid idx st1.knownCuls },
                     some idx)

/-! ## Title resolution (`gTitle`, source lines 47-116) -/

/-- The history loop of `gTitle.__init__` (lines 61-75): each space-separated
element is split at the first `=`; a plain value is a holder id resolved via
`getChrNameOrObj`, a braced value carries an event type and, unless
`destroyed`, a holder.  No try/except: failures propagate. -/
def titleHistoryGo (doc : Doc) (st : St) : List PyStr → Option (List (PyStr × RefOr × PyStr))
  | [] => some []
  | element :: rest =>
    match pySplitOnceRest 61 element with
    | none => none
    | some f1 =>
      let f0 := pySplitOnceHead 61 element
      if pyContains (pys ("\x7b")) f1 then
        match (pyFindAllCap (pys ("type=")) (pys ("\n")) f1).head? with
        | none => none
        | some ty =>
          if ty = pys ("destroyed") then
            (titleHistoryGo doc st rest).map (fun l => (f0, RefOr.txt [], gameStringToRead ty) :: l)
          else
            match (pyFindAllCap (pys ("holder=")) (pys ("\n")) f1).head? with
            | none => none
            | some hid =>
              match getChrNameOrObj doc st hid with
              | none => none
              | some holder =>
                (titleHistoryGo doc st rest).map (fun l => (f0, holder, gameStringToRead ty) :: l)
      else
        match getChrNameOrObj doc st f1 with
        | none => none
        | some holder =>
          (titleHistoryGo doc st rest).map (fun l => (f0, holder, pys ("gained")) :: l)

/-- The de-jure-vassal loop of `gTitle.__init__` (lines 101-109): a known id
embeds the registered title; otherwise with `lookDown` the vassal is resolved
as a full title (`lookUp=False`), and without it only its display name is
taken.  No try/except: failures propagate. -/
def titleVassalsGo (doc : Doc) (resolveTit : St → PyStr → Bool → Bool → St × Option Nat)
    (lookDown : Bool) (st : St) : List PyStr → St × Option (List RefOr)
  | [] => (st, some [])
  | v :: rest =>
    match regGet st.knownTitles v with
    | some r =>
      match titleVassalsGo doc resolveTit lookDown st rest with
      | (st', some l) => (st', some (RefOr.ref r :: l))
      | (st', none) => (st', none)
    | none =>
      if lookDown then
        match resolveTit st v false true with
        | (st1, some r) =>
          match titleVassalsGo doc resolveTit lookDown st1 rest with
          | (st', some l) => (st', some (RefOr.ref r :: l))
          | (st', none) => (st', none)
        | (st1, none) => (st1, none)
      else
        match getTitleName doc v with
        | none => (st, none)
        | some nm =>
          match titleVassalsGo doc resolveTit lookDown st rest with
          | (st', some l) => (st', some (RefOr.txt nm :: l))
          | (st', none) => (st', none)

/-- Embedding of `gTitle.__init__` (lines 47-116, `env = False`).  The title
registers itself in `knownTitles` right after its key and name are read
(line 55), *before* recursing into lieges and vassals — this is the
cycle-breaking registration — and registers itself again at the end
(line 110).  Baronies (`b_` in the key) skip history, lieges and vassals.
`lookDownToggle` (line 76) is always `False` for liege recursion. -/
def resolveTitle (doc : Doc) : Nat → St → PyStr → Bool → Bool → St × Option Nat
  | 0, st, _, _, _ => (st, none)
  | fuel + 1, st, titleid, lookUp, lookDown =>
    match findTitleData doc titleid with
    | none => (st, none)
    | some rawData =>
      match (pyFindAllCap (pys ("key=\x22")) (pys ("\x22")) rawData).head? with
      | none => (st, none)
      | some key =>
        match getTitleName doc titleid with
        | none => (st, none)
        | some name =>
          let idx := st.titleHeap.length
          let st0 : St := { st with titleHeap := st.titleHeap ++ [none],
                                    knownTitles := regSet titleid idx st.knownTitles }
          if pyContains (pys ("b_")) key then
            let obj : TitleObj := { titleid, key, name, history := none,
                                    de_jure := none, de_facto := none, vassals := none }
            ({ st0 with titleHeap := st0.titleHeap.set idx (some obj),
                        knownTitles := regSet titleid idx st0.knownTitles },
             some idx)
          else
            match (if pyContains (pys ("history=")) rawData then
                     match (pyFindAllCap (pys ("history=\x7b ")) (pys (" \x7d")) rawData).head? with
                     | none => none
                     | some fh => (titleHistoryGo doc st0 (pySplitChar 32 fh)).map some
                   else some none) with
            | none => (st0, none)
            | some history =>
              match (if pyContains (pys ("de_jure_liege")) rawData then
                       match (pyFindAllCap (pys ("de_jure_liege=")) (pys ("\n")) rawData).head? with
                       | none => (st0, none)
                       | some j =>
                         match regGet st0.knownTitles j with
                         | some r => (st0, some (some (RefOr.ref r)))
                         | none =>
                           if lookUp then
                             match resolveTitle doc fuel st0 j true false with
                             | (st', some r) => (st', some (some (RefOr.ref r)))
                             | (st', none) => (st', none)
                           else
                             match getTitleName doc j with
                             | some nm => (st0, some (some (RefOr.txt nm)))
                             | none => (st0, none)
                     else (st0, some none)) with
              | (st1, none) => (st1, none)
              | (st1, some de_jure) =>
                match (if pyContains (pys ("de_facto_liege")) rawData then
                         match (pyFindAllCap (pys ("de_facto_liege=")) (pys ("\n")) rawData).head? with
                         | none => (st1, none)
                         | some j =>
                           match regGet st1.knownTitles j with
                           | some r => (st1, some (some (RefOr.ref r)))
                           | none =>
                             if lookUp then
                               match resolveTitle doc fuel st1 j true false with
                               | (st', some r) => (st', some (some (RefOr.ref r)))
                               | (st', none) => (st', none)
                             else
                               match getTitleName doc j with
                               | some nm => (st1, some (some (RefOr.txt nm)))
                               | none => (st1, none)
                       else (st1, some none)) with
                | (st2, none) => (st2, none)
                | (st2, some de_facto) =>
                  match (if pyContains (pys ("de_jure_vassals=")) rawData then
                           match (pyFindAllCap (pys ("de_jure_vassals=\x7b ")) (pys (" \x7d"))
                                    rawData).head? with
                           | none => (st2, none)
                           | some fv =>
                             match titleVassalsGo doc
                                     (fun s v lu ld => resolveTitle doc fuel s v lu ld)
                                     lookDown st2 (pySplitChar 32 fv) with
                             | (st', some vs) => (st', some (some vs))
                             | (st', none) => (st', none)
                         else (st2, some none)) with
                  | (st3, none) => (st3, none)
                  | (st3, some vassals) =>
                    let obj : TitleObj := { titleid, key, name, history, de_jure, de_facto, vassals }
                    ({ st3 with titleHeap := st3.titleHeap.set idx (some obj),
                                knownTitles := regSet titleid idx st3.knownTitles },
                     some idx)

/-! ## Faith resolution (`gFaith`, source lines 118-160) -/

/-- Embedding of `gFaith.__init__` (lines 118-160, `env = False`): name from
`name="..."` or the normalized `tag="..."`, tenets and doctrines from the
ordered `doctrine="..."` matches (Python slices `[3:21]` and `[21:]`), and a
religious-head title resolved via the registry.  A failure inside the head
resolution is caught (`except IndexError: pass`) and leaves `head` unset;
the faith registers itself in `knownFaiths` only at the end (line 154). -/
def resolveFaith (doc : Doc) (fuel : Nat) (st : St) (faid : PyStr) : St × Option Nat :=
  match (doc.faithCands faid).head? with
  | none => (st, none)
  | some rawData =>
    let nameOpt : Option PyStr :=
      match (pyFindAllCap (pys ("name=\x22")) (pys ("\x22")) rawData).head? with
      | some n => some (pyCapitalize n)
      | none =>
        match (pyFindAllCap (pys ("tag=\x22")) (pys ("\x22")) rawData).head? with
        | some t => some (pyCapitalize (gameStringToRead t))
        | none => none
    match nameOpt with
    | none => (st, none)
    | some name =>
      match (pyFindAllCap (pys ("fervor=")) (pys ("\n")) rawData).head? with
      | none => (st, none)
      | some fervor =>
        let tenets := (pyFindAllCap (pys ("doctrine=\x22tenet_")) (pys ("\x22")) rawData).map
          gameStringToRead
        let findDoctrines := pyFindAllCap (pys ("doctrine=\x22")) (pys ("\x22")) rawData
        let basic := (findDoctrines.drop 3).take 18
        let others := findDoctrines.drop 21
        let doctrines := (basic ++ others).map gameStringToRead
        match (pyFindAllCap (pys ("religion=")) (pys ("\n")) rawData).head? with
        | none => (st, none)
        | some religion =>
          let finish : St → Option Nat → St × Option Nat := fun st' head =>
            let idx := st'.faithHeap.length
            let obj : FaithObj := { faid, name, fervor, tenets, doctrines, religion, head }
            ({ st' with faithHeap := st'.faithHeap ++ [some obj],
                        knownFaiths := regSet faid idx st'.knownFaiths },
             some idx)
          match (pyFindAllCap (pys ("religious_head=")) (pys ("\n")) rawData).head? with
          | some hd =>
            match regGet st.knownTitles hd with
            | some r => finish st (some r)
            | none =>
              match resolveTitle doc fuel st hd true true with
              | (st', some r) => finish st' (some r)
              | (st', none) => finish st' none
          | none => finish st none

/-! ## House and dynasty resolution (`gDynn`, source lines 205-272) -/

/-- The perk loop of `gDynn.__init__` (lines 239-247): quotes are stripped,
the name is everything but the last two characters, the level is the last
character parsed as an integer (`int` failure propagates), and the per-name
maximum is kept in insertion order. -/
def perkInsert (k : PyStr) (v : Nat) : List (PyStr × Nat) → List (PyStr × Nat)
  | [] => [(k, v)]
  | (k', v') :: rest =>
    if k' = k then (if v > v' then (k', v) :: rest else (k', v') :: rest)
    else (k', v') :: perkInsert k v rest

/-- Fold of the perk loop over the space-split perk tokens. -/
def dynPerksGo : List PyStr → List (PyStr × Nat) → Option (List (PyStr × Nat))
  | [], acc => some acc
  | perk :: rest, acc =>
    let p := pyReplace perk (pys ("\x22")) []
    let key := gameStringToRead (p.take (p.length - 2))
    match pyToNat (p.drop (p.length - 1)) with
    | none => none
    | some v => dynPerksGo rest (perkInsert key v acc)

/-- The historical-leader loop of `gDynn.__init__` (lines 256-258): each
leader id goes through `getChrNameOrObj`, with no try/except, so a missing
leader block propagates as a failure. -/
def dynLeadersGo (doc : Doc) (st : St) : List PyStr → Option (List RefOr)
  | [] => some []
  | l :: rest =>
    match getChrNameOrObj doc st l with
    | none => none
    | some r => (dynLeadersGo doc st rest).map (r :: ·)

/-- Embedding of `gDynn.__init__` (lines 205-272, `env = False`).  With
`house = True` the block comes from `findHouseData`, the house registers
itself in `knownDyns` immediately (line 209) and again at the end (line 261),
and its parent dynasty is *always* constructed afresh (`gDynn(..., False)`,
line 227 — the registry is not consulted for the parent).  With
`house = False` the block comes from `findDynastyData` and the object is
never registered. -/
def resolveDynn (doc : Doc) : Nat → St → PyStr → Bool → St × Option Nat
  | 0, st, _, _ => (st, none)
  | fuel + 1, st, dynid, house =>
    match (if house then findHouseData doc dynid else findDynastyData doc dynid) with
    | none => (st, none)
    | some rawData =>
      let idx := st.dynHeap.length
      let st0 : St := { st with dynHeap := st.dynHeap ++ [none],
                                knownDyns := if house then regSet dynid idx st.knownDyns
                                             else st.knownDyns }
      let nameOpt : Option PyStr :=
        match (pyFindAllCap (pys ("name=\x22")) (pys ("\x22")) rawData).head? with
        | some n => some (gameStringToRead n)
        | none =>
          match (pyFindAllCap (pys ("key=\x22")) (pys ("\x22")) rawData).head? with
          | some k =>
            some (gameStringToRead (pyReplace (pyReplace k (pys ("dynn_")) []) (pys ("_")) []))
          | none => none
      match nameOpt with
      | none => (st0, none)
      | some name =>
        let date := ((pyFindAllCap (pys ("found_date=")) (pys ("\n")) rawData).head?).getD
          (pys ("Time immemorial..."))
        let finish : St → Option Nat → Option Nat → Option Nat → Option PyStr → Option PyStr →
            Option (List (PyStr × Nat)) → St × Option Nat :=
          fun st' parent members houses prestige_tot prestige perks =>
            let historical :=
              match (pyFindAllCap (pys ("historical=\x7b")) (pys ("\x7d")) rawData).head? with
              | some h => dropEnds (pySplitChar 32 h)
              | none => []
            match dynLeadersGo doc st' historical with
            | none => (st', none)
            | some leaders =>
              let obj : DynObj := { dynid, name, date, parent, members, houses,
                                    prestige_tot, prestige, perks, leaders }
              ({ st' with dynHeap := st'.dynHeap.set idx (some obj),
                          knownDyns := if house then regSet dynid idx st'.knownDyns
                                       else st'.knownDyns },
               some idx)
        if house then
          match (pyFindAllCap (pys ("\tdynasty=")) (pys ("\n")) rawData).head? with
          | none => (st0, none)
          | some parentId =>
            match resolveDynn doc fuel st0 parentId false with
            | (st1, none) => (st1, none)
            | (st1, some pidx) =>
              let members := pyCount (pys ("dynasty_house=") ++ dynid) doc.raw
              finish st1 (some pidx) (some members) none none none none
        else
          let houses := pyCount (pys ("dynasty=") ++ dynid) doc.raw
          match (pyFindAllCap (pys ("accumulated=")) (pys ("\n")) rawData).head? with
          | none => (st0, none)
          | some ptot =>
            match (pyFindAllCap (pys ("currency=")) (pys ("\n")) rawData).head? with
            | none => (st0, none)
            | some pcur =>
              match (match (pyFindAllCap (pys ("perk=\x7b ")) (pys (" \x7d")) rawData).head? with
                     | some fp => dynPerksGo (pySplitChar 32 fp) []
                     | none => some []) with
              | none => (st0, none)
              | some perks =>
                finish st0 none none (some houses) (some ptot) (some pcur) (some perks)

/-! ## Character resolution (`gChar`, source lines 274-460) -/

/-- The trait loop (lines 331-335 and 338-340): each token is parsed with
`int` (failure propagates) and looked up with `getTrait`. -/
def traitsGo (table : List PyStr) : List PyStr → Option (List PyStr)
  | [] => some []
  | t :: rest =>
    match pyToNat t with
    | none => none
    | some n => (traitsGo table rest).map (getTrait table n :: ·)

/-- Embedding of `findLinkedChars` (source lines 585-607), parameterized by
the character factory (`gChar` with the limit already decreased).  Each id is
processed under an outer try/except that skips the id entirely and, when the
budget is positive, an inner try/except that degrades a failed resolution to
the extracted first name; with an exhausted budget only the first name is
taken.  The function itself therefore never fails. -/
def linkedCharsGo (doc : Doc) (reschar : St → PyStr → Nat → St × Option Nat)
    (limit : Nat) (st : St) : List PyStr → St × List RefOr
  | [] => (st, [])
  | c :: rest =>
    match findCharData doc c with
    | none => linkedCharsGo doc reschar limit st rest
    | some charData =>
      if limit > 0 then
        match regGet st.knownChars c with
        | some r =>
          let (st', l) := linkedCharsGo doc reschar limit st rest
          (st', RefOr.ref r :: l)
        | none =>
          match reschar st c (limit - 1) with
          | (st1, some i) =>
            let (st', l) := linkedCharsGo doc reschar limit st1 rest
            (st', RefOr.ref i :: l)
          | (st1, none) =>
            match (pyFindAllCap (pys ("first_name=\x22")) (pys ("\x22")) charData).head? with
            | some n =>
              let (st', l) := linkedCharsGo doc reschar limit st1 rest
              (st', RefOr.txt (gameStringToRead (pyReplace n (pys ("_")) [])) :: l)
            | none => linkedCharsGo doc reschar limit st1 rest
      else
        match (pyFindAllCap (pys ("first_name=\x22")) (pys ("\x22")) charData).head? with
        | some n =>
          let (st', l) := linkedCharsGo doc reschar limit st rest
          (st', RefOr.txt (gameStringToRead (pyReplace n (pys ("_")) [])) :: l)
        | none => linkedCharsGo doc reschar limit st rest

/-- The kill loop of `gChar.__init__` (lines 399-404): known ids embed the
registered object, unknown ones are resolved with the decreased budget.
There is *no* try/except here: one failing kill propagates and aborts the
whole character. -/
def killsGo (reschar : St → PyStr → Nat → St × Option Nat) (limit : Nat) (st : St) :
    List PyStr → St × Option (List RefOr)
  | [] => (st, some [])
  | d :: rest =>
    match regGet st.knownChars d with
    | some r =>
      match killsGo reschar limit st rest with
      | (st', some l) => (st', some (RefOr.ref r :: l))
      | (st', none) => (st', none)
    | none =>
      match reschar st d (limit - 1) with
      | (st1, some i) =>
        match killsGo reschar limit st1 rest with
        | (st', some l) => (st', some (RefOr.ref i :: l))
        | (st', none) => (st', none)
      | (st1, none) => (st1, none)

/-- The vassal loop of `gChar.__init__` (lines 423-432): each contract id is
mapped to a vassal id and resolved, under a per-contract try/except that
skips the contract on any failure, so the loop itself never fails. -/
def charVassalsGo (doc : Doc) (reschar : St → PyStr → Nat → St × Option Nat)
    (limit : Nat) (st : St) : List PyStr → St × List RefOr
  | [] => (st, [])
  | con :: rest =>
    match findVassal doc con with
    | none => charVassalsGo doc reschar limit st rest
    | some vid =>
      match regGet st.knownChars vid with
      | some r =>
        let (st', l) := charVassalsGo doc reschar limit st rest
        (st', RefOr.ref r :: l)
      | none =>
        match reschar st vid (limit - 1) with
        | (st1, some i) =>
          let (st', l) := charVassalsGo doc reschar limit st1 rest
          (st', RefOr.ref i :: l)
        | (st1, none) => charVassalsGo doc reschar limit st1 rest

/-- The domain loop (lines 380-385 and 415-420): each held title is the
registered object or a fresh full resolution (`lookUp` and `lookDown` both
at their `True` defaults); no try/except, failures propagate. -/
def domainTitlesGo (doc : Doc) (fuel : Nat) (st : St) : List PyStr → St × Option (List RefOr)
  | [] => (st, some [])
  | t :: rest =>
    match regGet st.knownTitles t with
    | some r =>
      match domainTitlesGo doc fuel st rest with
      | (st', some l) => (st', some (RefOr.ref r :: l))
      | (st', none) => (st', none)
    | none =>
      match resolveTitle doc fuel st t true true with
      | (st1, some i) =>
        match domainTitlesGo doc fuel st1 rest with
        | (st', some l) => (st', some (RefOr.ref i :: l))
        | (st', none) => (st', none)
      | (st1, none) => (st1, none)

/-- The memory loop (lines 447-449): no try/except, failures propagate. -/
def memoriesGo (doc : Doc) (st : St) : List PyStr → Option (List MemObj)
  | [] => some []
  | m :: rest =>
    match resolveMem doc st m with
    | none => none
    | some o => (memoriesGo doc st rest).map (o :: ·)

/-- Embedding of `gChar.__init__` (lines 274-460, `env = False`).  The
character registers itself in `knownChars` immediately after its block is
located (line 287), before any recursion — the cycle-breaking registration —
and again at the end (line 451).  `limit` is the depth budget: the kill and
vassal lists are only processed when `limit > 0`, and family members are
resolved through `findLinkedChars` with the same budget.  A failure anywhere
outside a try/except aborts the character, leaving the placeholder and all
states reached so far in place. -/
def resolveChar (doc : Doc) : Nat → St → PyStr → Nat → St × Option Nat
  | 0, st, _, _ => (st, none)
  | fuel + 1, st, charid, limit =>
    match findCharData doc charid with
    | none => (st, none)
    | some rawData =>
      let idx := st.charHeap.length
      let stR : St := { st with charHeap := st.charHeap ++ [none],
                                knownChars := regSet charid idx st.knownChars }
      match (pyFindAllCap (pys ("first_name=\x22")) (pys ("\x22")) rawData).head? with
      | none => (stR, none)
      | some fn =>
        let name := gameStringToRead (pyReplace fn (pys ("_")) [])
        match (pyFindAllCap (pys ("birth=")) (pys ("\n")) rawData).head? with
        | none => (stR, none)
        | some birth =>
          match (match (pyFindAllCap (pys ("culture=")) (pys ("\n")) rawData).head? with
                 | some culid =>
                   match regGet stR.knownCuls culid with
                   | some r => (stR, some (RefOr.ref r))
                   | none =>
                     match resolveCulture doc fuel stR culid with
                     | (st', some i) => (st', some (RefOr.ref i))
                     | (st', none) => (st', none)
                 | none => (stR, some (RefOr.txt (pys ("Lost to time..."))))) with
          | (st1, none) => (st1, none)
          | (st1, some culture) =>
            match (match (pyFindAllCap (pys ("faith=")) (pys ("\n")) rawData).head? with
                   | some faid =>
                     match regGet st1.knownFaiths faid with
                     | some r => (st1, some (RefOr.ref r))
                     | none =>
                       match resolveFaith doc fuel st1 faid with
                       | (st', some i) => (st', some (RefOr.ref i))
                       | (st', none) => (st', none)
                   | none => (st1, some (RefOr.txt (pys ("Lost to time..."))))) with
            | (st2, none) => (st2, none)
            | (st2, some faith) =>
              let nick :=
                (((pyFindAllCap (pys ("nickname=\x22")) (pys ("\x22")) rawData).head?).map
                  gameStringToRead).getD []
              let dna := (pyFindAllCap (pys ("dna=\x22")) (pys ("\x22")) rawData).head?
              match (pyFindAllCap (pys ("skill=\x7b")) (pys ("\x7d")) rawData).head? with
              | none => (st2, none)
              | some sk =>
                let skills := pySplitChar 32 sk
                match (match (pyFindAllCap (pys ("traits=\x7b")) (pys ("\x7d")) rawData).head? with
                       | some ts => traitsGo doc.traitTable (dropEnds (pySplitChar 32 ts))
                       | none => some []) with
                | none => (st2, none)
                | some traits =>
                  match (match (pyFindAllCap (pys ("recessive_traits=\x7b")) (pys ("\x7d"))
                                  rawData).head? with
                         | some ts => traitsGo doc.traitTable (dropEnds (pySplitChar 32 ts))
                         | none => some []) with
                  | none => (st2, none)
                  | some recessive =>
                    let reschar := fun s c l => resolveChar doc fuel s c l
                    let famStep : St × Option (List RefOr) × Option (List RefOr) ×
                        Option (List RefOr) :=
                      match (pyFindAllCap (pys ("family_data=\x7b")) (pys ("\t\x7d"))
                               rawData).head? with
                      | none => (st2, none, none, none)
                      | some familyData =>
                        let findSpouse := pyFindAllCap (pys ("\tspouse=")) (pys ("\n")) familyData
                        let (stA, spouses) :=
                          if findSpouse ≠ [] then
                            let (s', l) := linkedCharsGo doc reschar limit st2 findSpouse
                            (s', some l)
                          else (st2, none)
                        let (stB, former) :=
                          match (pyFindAllCap (pys ("former_spouses=\x7b")) (pys ("\x7d"))
                                   familyData).head? with
                          | some ff =>
                            let (s', l) := linkedCharsGo doc reschar limit stA
                              (dropEnds (pySplitChar 32 ff))
                            (s', some l)
                          | none => (stA, none)
                        let (stC, children) :=
                          match (pyFindAllCap (pys ("child=\x7b")) (pys ("\x7d"))
                                   familyData).head? with
                          | some fc =>
                            let (s', l) := linkedCharsGo doc reschar limit stB
                              (dropEnds (pySplitChar 32 fc))
                            (s', some l)
                          | none => (stB, none)
                        (stC, spouses, former, children)
                    match famStep with
                    | (st3, spouses, former, children) =>
                      match (match (pyFindAllCap (pys ("dynasty_house=")) (pys ("\n"))
                                      rawData).head? with
                             | some dynastyId =>
                               match regGet st3.knownDyns dynastyId with
                               | some r => (st3, some (some dynastyId, RefOr.ref r))
                               | none =>
                                 match resolveDynn doc fuel st3 dynastyId true with
                                 | (st', some i) => (st', some (some dynastyId, RefOr.ref i))
                                 | (st', none) => (st', none)
                             | none =>
                               (st3, some (none, RefOr.txt (pys ("Lowborn"))))) with
                      | (st4, none) => (st4, none)
                      | (st4, some (dynastyId, house)) =>
                        let finish : St → CharObj → St × Option Nat := fun st' obj =>
                          ({ st' with charHeap := st'.charHeap.set idx (some obj),
                                      knownChars := regSet charid idx st'.knownChars },
                           some idx)
                        let base : CharObj :=
                          { charid, name, birth, culture, faith, nick, dna, skills, traits,
                            recessive, spouses, former, children, dynastyId, house,
                            dead := true, date := none, reason := none, liege := none,
                            government := none, titles := none, gold := none, piety := none,
                            prestige := none, kills := none, languages := none, vassals := none,
                            dread := none, strength := none, memories := none }
                        if pyContains (pys ("dead_data")) rawData then
                          match (pyFindAllCap (pys ("date=")) (pys ("\n")) rawData).head? with
                          | none => (st4, none)
                          | some date =>
                            match (pyFindAllCap (pys ("reason=\x22")) (pys ("\x22\n"))
                                     rawData).head? with
                            | none => (st4, none)
                            | some reason =>
                              let liege :=
                                match (pyFindAllCap (pys ("liege=")) (pys ("\n"))
                                         rawData).head? with
                                | some l => if l ≠ charid then some l else none
                                | none => none
                              match (pyFindAllCap (pys ("government=\x22")) (pys ("\x22"))
                                       rawData).head? with
                              | some government =>
                                match (pyFindAllCap (pys ("domain=\x7b")) (pys ("\x7d"))
                                         rawData).head? with
                                | none => (st4, none)
                                | some dom =>
                                  match domainTitlesGo doc fuel st4
                                          (dropEnds (pySplitChar 32 dom)) with
                                  | (st5, none) => (st5, none)
                                  | (st5, some titles) =>
                                    finish st5
                                      { base with
                                        dead := true
                                        date := some date
                                        reason := some (gameStringToRead reason)
                                        liege := liege
                                        government := some government
                                        titles := some titles }
                              | none =>
                                finish st4
                                  { base with
                                    dead := true
                                    date := some date
                                    reason := some (gameStringToRead reason)
                                    liege := liege
                                    government := some (pys ("Unlanded")) }
                        else
                          match (pyFindAllCap (pys ("gold=")) (pys ("\n")) rawData).head? with
                          | none => (st4, none)
                          | some gold =>
                            match (pyFindAllCap (pys ("accumulated=")) (pys ("\n"))
                                     rawData).head? with
                            | none => (st4, none)
                            | some piety =>
                              let findKills := pyFindAllCap (pys ("kills=\x7b")) (pys ("\x7d"))
                                rawData
                              match (if findKills ≠ [] ∧ limit > 0 then
                                       match killsGo reschar limit st4
                                               (dropEnds (pySplitChar 32 (findKills.headD []))) with
                                       | (st', some l) => (st', some (some l))
                                       | (st', none) => (st', none)
                                     else (st4, some none)) with
                              | (st5, none) => (st5, none)
                              | (st5, some kills) =>
                                let findLanguages := pyFindAllCap (pys ("languages=\x7b"))
                                  (pys ("\x7d")) rawData
                                let languages :=
                                  if findLanguages ≠ [] then
                                    some (findLanguages.map
                                      (fun lg => pyReplace lg (pys ("language_")) []))
                                  else none
                                let aliveFinish : St → Option (List RefOr) →
                                    Option (List RefOr) → Option PyStr → Option PyStr →
                                    Option PyStr → St × Option Nat :=
                                  fun st' titles vassals government dread strength =>
                                    match (pyFindAllCap (pys ("memories=\x7b")) (pys ("\x7d"))
                                             rawData).head? with
                                    | none => (st', none)
                                    | some mems =>
                                      let memList := dropEnds (pySplitChar 32 mems)
                                      match (if memList ≠ [] then
                                               (memoriesGo doc st' memList).map some
                                             else some none) with
                                      | none => (st', none)
                                      | some memories =>
                                        finish st'
                                          { base with
                                            dead := false
                                            gold := some gold
                                            piety := some piety
                                            prestige := some piety
                                            kills := kills
                                            languages := languages
                                            titles := titles
                                            vassals := vassals
                                            government := government
                                            dread := dread
                                            strength := strength
                                            memories := memories }
                                match (pyFindAllCap (pys ("government=\x22")) (pys ("\x22"))
                                         rawData).head? with
                                | some government =>
                                  match (pyFindAllCap (pys ("domain=\x7b")) (pys ("\x7d"))
                                           rawData).head? with
                                  | none => (st5, none)
                                  | some dom =>
                                    match domainTitlesGo doc fuel st5
                                            (dropEnds (pySplitChar 32 dom)) with
                                    | (st6, none) => (st6, none)
                                    | (st6, some titles) =>
                                      let findVassals := pyFindAllCap
                                        (pys ("vassal_contracts=\x7b")) (pys ("\x7d")) rawData
                                      let (st7, vassals) :=
                                        if findVassals ≠ [] ∧ limit > 0 then
                                          let (s', l) := charVassalsGo doc reschar limit st6
                                            (dropEnds (pySplitChar 32 (findVassals.headD [])))
                                          (s', some l)
                                        else (st6, none)
                                      let dread :=
                                        ((pyFindAllCap (pys ("dread=")) (pys ("\n"))
                                          rawData).head?).getD (pys ("0"))
                                      let strength :=
                                        ((pyFindAllCap (pys ("current_strength=")) (pys ("\n"))
                                          rawData).head?).getD (pys ("0"))
                                      aliveFinish st7 (some titles) vassals (some government)
                                        (some dread) (some strength)
                                | none =>
                                  aliveFinish st5 none none (some (pys ("Unlanded"))) none none

/-! ## Lineage entries (`lChar`, source lines 463-492) and the lineage loop
(`gLineage`, lines 528-546) -/

/-- Embedding of `lChar.__init__` (lines 463-492): extract the character id
and date from the lineage entry, then construct the character with `gChar`
*unconditionally* — the registry is not consulted here (line 472) — and copy
its name, nickname and house.  The accomplishment fields default together
when any of them is missing (the shared try/except of lines 477-492). -/
def resolveLChar (doc : Doc) (fuel : Nat) (st : St) (rawData : PyStr) (limit : Nat) :
    St × Option LCharObj :=
  match (pyFindAllCap (pys ("character=")) (pys ("\n")) rawData).head? with
  | none => (st, none)
  | some charid =>
    match (pyFindAllCap (pys ("date=")) (pys ("\n")) rawData).head? with
    | none => (st, none)
    | some date =>
      match resolveChar doc fuel st charid limit with
      | (st', none) => (st', none)
      | (st', some i) =>
        match st'.charHeap.getD i none with
        | none => (st', none)
        | some c =>
          let acc : Option (PyStr × PyStr × List PyStr) :=
            match (pyFindAllCap (pys ("score=")) (pys ("\n")) rawData).head? with
            | none => none
            | some score =>
              match (pyFindAllCap (pys ("lifestyle=\x22")) (pys ("\x22")) rawData).head? with
              | none => none
              | some ls =>
                some (score, gameStringToRead ls,
                  (pyFindAllCap (pys ("perk=\x22")) (pys ("\x22")) rawData).map gameStringToRead)
          match acc with
          | some (score, lifestyle, perks) =>
            (st', some { charid, date, name := c.name, nick := c.nick, house := c.house,
                         score, lifestyle, perks })
          | none =>
            (st', some { charid, date, name := c.name, nick := c.nick, house := c.house,
                         score := pys ("This character's legacy is still undecided"),
                         lifestyle := [], perks := [] })

/-- The per-entry loop of `gLineage.__init__` (lines 538-546): each lineage
entry is turned into an `lChar`.  There is no try/except around an entry, so
a failing entry aborts the whole lineage (the try/except sits one level up,
around the whole `gLineage`, in the `__main__` driver). -/
def lineageGo (doc : Doc) (fuel : Nat) (limit : Nat) (st : St) :
    List PyStr → St × Option (List LCharObj)
  | [] => (st, some [])
  | e :: rest =>
    match resolveLChar doc fuel st e limit with
    | (st', none) => (st', none)
    | (st', some lc) =>
      match lineageGo doc fuel limit st' rest with
      | (st'', none) => (st'', none)
      | (st'', some l) => (st'', some (lc :: l))

/-- Embedding of `findLinkedChars` as called by the source (lines 585-607):
the loop body with the factory fixed to `gChar` at the given fuel. -/
def findLinkedChars (doc : Doc) (fuel : Nat) (charids : List PyStr) (limit : Nat) (st : St) :
    St × List RefOr :=
  linkedCharsGo doc (fun s c l => resolveChar doc fuel s c l) limit st charids

/-! ## Concrete documents

Small synthetic save documents, written in the exact textual shapes the
source's regular expressions expect.  Block strings contain the full match
text of the corresponding locator pattern; candidate functions return them
keyed by id, in document order. -/

/-- A document with no blocks at all. -/
def emptyDoc : Doc :=
  { raw := [], traitTable := [],
    charCands := fun _ => [], titleCands := fun _ => [], blockCands := fun _ => [],
    culCands := fun _ => [], faithCands := fun _ => [], conCands := fun _ => [],
    memCands := fun _ => [] }

/-- Character block 100 for the lineage test: a plain dead character. -/
def blkC1 : PyStr :=
  pys ("\n100=\x7b\n\tfirst_name=\x22jon\x22\n\tbirth=1.1.1\n\tskill=\x7b 5 \x7d\n\tdead_data=x\n\tdate=50.1.1\n\treason=\x22death_natural\x22\n\x7d")

/-- Document for the duplicated-lineage-entry scenario: one character, id
`100`. -/
def docC1 : Doc :=
  { emptyDoc with charCands := fun id => if id = pys ("100") then [blkC1] else [] }

/-- A lineage entry referencing character 100 (no score: the accomplishments
default). -/
def entryC1 : PyStr := pys ("character=100\n\tdate=20.1.1\n")

/-- Alive character 200 whose vassal contract `cA1` points at 201. -/
def blkCycA : PyStr :=
  pys ("\n200=\x7b\n\tfirst_name=\x22aaa\x22\n\tbirth=1.1.1\n\tskill=\x7b 1 \x7d\n\tgold=5\n\taccumulated=10\n\tgovernment=\x22feudal\x22\n\tdomain=\x7b \x7d\n\tvassal_contracts=\x7b cA1 \x7d\n\tmemories=\x7b \x7d\n\x7d")

/-- Alive character 201 whose vassal contract `cB1` points back at 200. -/
def blkCycB : PyStr :=
  pys ("\n201=\x7b\n\tfirst_name=\x22bbb\x22\n\tbirth=1.1.1\n\tskill=\x7b 1 \x7d\n\tgold=5\n\taccumulated=10\n\tgovernment=\x22feudal\x22\n\tdomain=\x7b \x7d\n\tvassal_contracts=\x7b cB1 \x7d\n\tmemories=\x7b \x7d\n\x7d")

/-- Title T1: de jure liege T2, de jure vassal T2. -/
def blkTitA : PyStr :=
  pys ("\nT1=\x7b\n\tkey=\x22d_one\x22\n\tname=\x22One\x22\n\tde_jure_liege=T2\n\tde_jure_vassals=\x7b T2 \x7d\n\x7d")

/-- Title T2: de jure liege T1, de jure vassal T1 (a genuine two-cycle). -/
def blkTitB : PyStr :=
  pys ("\nT2=\x7b\n\tkey=\x22c_two\x22\n\tname=\x22Two\x22\n\tde_jure_liege=T1\n\tde_jure_vassals=\x7b T1 \x7d\n\x7d")

/-- Culture `cA` whose parents list contains `cA` itself (the captured inner
text of the culture pattern). -/
def blkCulA : PyStr :=
  pys ("\n\t\t\tname=\x22akan\x22\n\t\t\tcreated=10.1.1\n\t\t\tethos=\x22ethos_bellicose\x22\n\t\t\theritage=\x22heritage_x\x22\n\t\t\tlanguage=\x22language_x\x22\n\t\t\tparents=\x7b cA \x7d\n\t\t\ttraditions=\x7b tradition_a \x7d\n\t\t\tmartial_custom=\x22martial_custom_all\x22")

/-- Document with a character cycle (200 ↔ 201 through vassal contracts), a
title cycle (T1 ↔ T2 through de jure liege/vassal) and a culture that is its
own parent (`cA`). -/
def docCyc : Doc :=
  { emptyDoc with
    charCands := fun id =>
      if id = pys ("200") then [blkCycA] else if id = pys ("201") then [blkCycB] else []
    titleCands := fun id =>
      if id = pys ("T1") then [blkTitA] else if id = pys ("T2") then [blkTitB] else []
    culCands := fun id => if id = pys ("cA") then [blkCulA] else []
    conCands := fun id =>
      if id = pys ("cA1") then [pys ("\n\t\tcA1=\x7b\n\t\t\tvassal=201\n\t\t\x7d")]
      else if id = pys ("cB1") then [pys ("\n\t\tcB1=\x7b\n\t\t\tvassal=200\n\t\t\x7d")]
      else [] }

/-- Alive character 100 with one spouse (200), one kill (300) and one vassal
contract (`c1`, held by 400): the depth-budget fan-out scenario. -/
def blkC3 : PyStr :=
  pys ("\n100=\x7b\n\tfirst_name=\x22hero\x22\n\tbirth=1.1.1\n\tskill=\x7b 1 \x7d\n\tfamily_data=\x7b\n\t\tspouse=200\n\t\x7d\n\tgold=5\n\taccumulated=10\n\tkills=\x7b 300 \x7d\n\tgovernment=\x22feudal\x22\n\tdomain=\x7b \x7d\n\tvassal_contracts=\x7b c1 \x7d\n\tmemories=\x7b \x7d\n\x7d")

/-- A plain dead character block with the given id and first name. -/
def simpleDead (id nm : String) : PyStr :=
  pys ("\n") ++ pys (id) ++ pys ("=\x7b\n\tfirst_name=\x22") ++ pys (nm) ++
    pys ("\x22\n\tbirth=2.1.1\n\tskill=\x7b 1 \x7d\n\tdead_data=x\n\tdate=9.1.1\n\treason=\x22death_natural\x22\n\x7d")

/-- Document for the depth-budget claim. -/
def docC3 : Doc :=
  { emptyDoc with
    charCands := fun id =>
      if id = pys ("100") then [blkC3]
      else if id = pys ("200") then [simpleDead ("200") ("wena")]
      else if id = pys ("300") then [simpleDead ("300") ("vic")]
      else if id = pys ("400") then [simpleDead ("400") ("vas")]
      else []
    conCands := fun id =>
      if id = pys ("c1") then [pys ("\n\t\tc1=\x7b\n\t\t\tvassal=400\n\t\t\x7d")] else [] }

/-- Alive character 100 whose kill list names a missing character (999)
before an existing one (301). -/
def blkC4bad : PyStr :=
  pys ("\n100=\x7b\n\tfirst_name=\x22bad\x22\n\tbirth=1.1.1\n\tskill=\x7b 1 \x7d\n\tgold=5\n\taccumulated=10\n\tkills=\x7b 999 301 \x7d\n\tmemories=\x7b \x7d\n\x7d")

/-- Alive character 150 with two spouse entries (999 missing, 301 present)
and two vassal contracts (`c9` missing, `c2` held by 302). -/
def blkC4good : PyStr :=
  pys ("\n150=\x7b\n\tfirst_name=\x22good\x22\n\tbirth=1.1.1\n\tskill=\x7b 1 \x7d\n\tfamily_data=\x7b\n\t\tspouse=999\n\t\tspouse=301\n\t\x7d\n\tgold=5\n\taccumulated=10\n\tgovernment=\x22feudal\x22\n\tdomain=\x7b \x7d\n\tvassal_contracts=\x7b c9 c2 \x7d\n\tmemories=\x7b \x7d\n\x7d")

/-- Document for the failure-isolation claim. -/
def docC4 : Doc :=
  { emptyDoc with
    charCands := fun id =>
      if id = pys ("100") then [blkC4bad]
      else if id = pys ("150") then [blkC4good]
      else if id = pys ("301") then [simpleDead ("301") ("john")]
      else if id = pys ("302") then [simpleDead ("302") ("hugh")]
      else []
    conCands := fun id =>
      if id = pys ("c2") then [pys ("\n\t\tc2=\x7b\n\t\t\tvassal=302\n\t\t\x7d")] else [] }

/-- A two-line trait lookup table for the stale-index scenario. -/
def tableC5 : List PyStr := [pys ("brave"), pys ("craven")]

/-- Dead character whose skill list is `{ 1 2 3 }`, for the list-stripping
claim. -/
def blkC6 : PyStr :=
  pys ("\n110=\x7b\n\tfirst_name=\x22ska\x22\n\tbirth=1.1.1\n\tskill=\x7b 1 2 3 \x7d\n\tdead_data=x\n\tdate=9.1.1\n\treason=\x22death_natural\x22\n\x7d")

/-- Document for the list-stripping claim. -/
def docC6 : Doc :=
  { emptyDoc with charCands := fun id => if id = pys ("110") then [blkC6] else [] }

/-- Title block whose key starts with `c_` but also contains `b_`, with no
article field. -/
def blkC7 : PyStr :=
  pys ("\nX=\x7b\n\tkey=\x22c_ab_d\x22\n\tname=\x22Test\x22\n\x7d")

/-- Title block with an explicit article field. -/
def blkC7art : PyStr :=
  pys ("\nY=\x7b\n\tkey=\x22c_foo\x22\n\tname=\x22Bar\x22\n\tarticle=\x22The \x22\n\x7d")

/-- Document for the title-naming claim. -/
def docC7 : Doc :=
  { emptyDoc with
    titleCands := fun id =>
      if id = pys ("X") then [blkC7] else if id = pys ("Y") then [blkC7art] else [] }

set_option maxRecDepth 200000

/-! ## The display-name normalizer: spec-side description and lemmas -/

/-- The fixed, ordered marker list of the normalizer, as the specification
enumerates it (dynasty/nickname/death/ethos/heritage/custom/tradition/
language/doctrine/special/boolean markers and the positional numeric
suffixes). -/
def markerList : List PyStr :=
  [pys ("dynn_"), pys ("_lifestyle"), pys ("_perk"), pys ("nick_"), pys ("death_"),
   pys ("ethos_"), pys ("heritage_"), pys ("martial_custom_"), pys ("tradition_"),
   pys ("fp2_"), pys ("fp1_"), pys ("language_"), pys ("_1"), pys ("_2"),
   pys ("doctrine_"), pys ("special_"), pys ("is_")]

/-- Modelled from the spec: the display-name transform as §4.4 words it —
apply the fixed ordered replacement list once, front to back,
non-recursively; then replace remaining underscores with spaces; then
lower-case and capitalize the first letter. -/
def toDisplaySpec (s : PyStr) : PyStr :=
  pyCapitalize (pyLower
    (pyReplace (markerList.foldl (fun acc m => pyReplace acc m []) s)
      (pys ("_")) (pys (" "))))

lemma pyReplaceAux_eq_self {c : Nat} {old : PyStr} (hc : c ∈ old) (new : PyStr) :
    ∀ (fuel : Nat) (s : PyStr), c ∉ s → s.length ≤ fuel →
      pyReplaceAux fuel s old new = s := by
  intro fuel
  induction fuel with
  | zero =>
    intro s _ hl
    have : s = [] := List.eq_nil_of_length_eq_zero (Nat.le_zero.mp hl)
    subst this; rfl
  | succ n ih =>
    intro s hs hl
    cases s with
    | nil => rfl
    | cons c' rest =>
      have hpre : ¬ (old ≠ [] ∧ old.isPrefixOf (c' :: rest)) := by
        rintro ⟨-, hp⟩
        exact hs ((List.isPrefixOf_iff_prefix.mp hp).subset hc)
      simp only [pyReplaceAux, if_neg hpre]
      have : c ∉ rest := fun h => hs (List.mem_cons_of_mem _ h)
      rw [ih rest this (by simpa using Nat.succ_le_succ_iff.mp hl)]

/-- A replacement whose pattern contains a character absent from the string
is the identity. -/
lemma pyReplace_eq_self {c : Nat} {old : PyStr} (hc : c ∈ old) {s : PyStr}
    (hs : c ∉ s) (new : PyStr) : pyReplace s old new = s :=
  pyReplaceAux_eq_self hc new s.length s hs (Nat.le_refl _)

lemma not_mem_pyReplaceAux_single {u v : Nat} (huv : u ≠ v) :
    ∀ (fuel : Nat) (s : PyStr), u ∉ pyReplaceAux fuel s [u] [v] := by
  intro fuel
  induction fuel with
  | zero => intro s; simp [pyReplaceAux]
  | succ n ih =>
    intro s
    cases s with
    | nil => simp [pyReplaceAux]
    | cons c rest =>
      by_cases hc : c = u
      · subst hc
        have hp : ([c] : PyStr) ≠ [] ∧ ([c] : PyStr).isPrefixOf (c :: rest) := by
          refine ⟨by simp, ?_⟩
          simp [List.isPrefixOf]
        simp only [pyReplaceAux, if_pos hp, List.length_cons, List.length_nil]
        intro hmem
        rcases List.mem_append.mp hmem with h | h
        · simp at h; exact huv h
        · exact ih _ (by simpa using h)
      · have hp : ¬ (([u] : PyStr) ≠ [] ∧ ([u] : PyStr).isPrefixOf (c :: rest)) := by
          rintro ⟨-, hp⟩
          simp [List.isPrefixOf] at hp
          exact hc hp.symm
        simp only [pyReplaceAux, if_neg hp]
        intro hmem
        rcases List.mem_cons.mp hmem with h | h
        · exact hc h.symm
        · exact ih _ h

/-- Replacing every underscore by a space leaves no underscore. -/
lemma not_mem_pyReplace_underscore (s : PyStr) :
    (95 : Nat) ∉ pyReplace s (pys ("_")) (pys (" ")) := by
  have h : pys ("_") = [95] := rfl
  have h' : pys (" ") = [32] := rfl
  rw [pyReplace, h, h']
  exact not_mem_pyReplaceAux_single (by omega) s.length s

lemma lowNat_idem (c : Nat) : lowNat (lowNat c) = lowNat c := by
  unfold lowNat; split_ifs <;> omega

lemma upNat_lowNat_cycle (c : Nat) : upNat (lowNat (upNat (lowNat c))) = upNat (lowNat c) := by
  unfold lowNat upNat; split_ifs <;> omega

lemma lowNat_ne_95 {c : Nat} (h : c ≠ 95) : lowNat c ≠ 95 := by
  unfold lowNat; split_ifs <;> omega

lemma upNat_ne_95 {c : Nat} (h : c ≠ 95) : upNat c ≠ 95 := by
  unfold upNat; split_ifs <;> omega

/-- Lower-casing then capitalizing a string without underscores again yields
a string without underscores. -/
lemma not_mem_lowcap {s : PyStr} (h : (95 : Nat) ∉ s) :
    (95 : Nat) ∉ pyCapitalize (pyLower s) := by
  cases s with
  | nil => simp [pyLower, pyCapitalize]
  | cons c t =>
    simp only [pyLower, List.map_cons, pyCapitalize, List.mem_cons, not_or]
    constructor
    · have : c ≠ 95 := fun hc => h (by simp [hc])
      exact fun hmem => upNat_ne_95 (lowNat_ne_95 this) hmem.symm
    · intro hmem
      simp only [List.map_map, List.mem_map, Function.comp] at hmem
      obtain ⟨a, ha, hval⟩ := hmem
      have hane : a ≠ 95 := fun hc => h (List.mem_cons_of_mem _ (hc ▸ ha))
      exact lowNat_ne_95 (lowNat_ne_95 hane) hval

/-- The tail transform `.lower().capitalize()` of the normalizer is
idempotent. -/
lemma lowcap_idem (s : PyStr) :
    pyCapitalize (pyLower (pyCapitalize (pyLower s))) = pyCapitalize (pyLower s) := by
  cases s with
  | nil => rfl
  | cons c t =>
    simp only [pyLower, List.map_cons, pyCapitalize, List.map_map, List.cons.injEq]
    refine ⟨upNat_lowNat_cycle c, ?_⟩
    exact List.map_congr_left (fun a _ => by
      simp only [Function.comp]
      rw [lowNat_idem, lowNat_idem])

/-- The normalizer's output never contains an underscore. -/
lemma gameStringToRead_no_underscore (s : PyStr) :
    (95 : Nat) ∉ gameStringToRead s := by
  simp only [gameStringToRead]
  exact not_mem_lowcap (not_mem_pyReplace_underscore _)

/-- On an underscore-free string the normalizer only lower-cases and
capitalizes: every marker pattern contains an underscore, so every
replacement is the identity. -/
lemma gameStringToRead_of_no_underscore {t : PyStr} (h : (95 : Nat) ∉ t) :
    gameStringToRead t = pyCapitalize (pyLower t) := by
  simp only [gameStringToRead]
  rw [pyReplace_eq_self (by decide : (95:Nat) ∈ pys ("dynn_")) h,
      pyReplace_eq_self (by decide : (95:Nat) ∈ pys ("_lifestyle")) h,
      pyReplace_eq_self (by decide : (95:Nat) ∈ pys ("_perk")) h,
      pyReplace_eq_self (by decide : (95:Nat) ∈ pys ("nick_")) h,
      pyReplace_eq_self (by decide : (95:Nat) ∈ pys ("death_")) h,
      pyReplace_eq_self (by decide : (95:Nat) ∈ pys ("ethos_")) h,
      pyReplace_eq_self (by decide : (95:Nat) ∈ pys ("heritage_")) h,
      pyReplace_eq_self (by decide : (95:Nat) ∈ pys ("martial_custom_")) h,
      pyReplace_eq_self (by decide : (95:Nat) ∈ pys ("tradition_")) h,
      pyReplace_eq_self (by decide : (95:Nat) ∈ pys ("fp2_")) h,
      pyReplace_eq_self (by decide : (95:Nat) ∈ pys ("fp1_")) h,
      pyReplace_eq_self (by decide : (95:Nat) ∈ pys ("language_")) h,
      pyReplace_eq_self (by decide : (95:Nat) ∈ pys ("_1")) h,
      pyReplace_eq_self (by decide : (95:Nat) ∈ pys ("_2")) h,
      pyReplace_eq_self (by decide : (95:Nat) ∈ pys ("doctrine_")) h,
      pyReplace_eq_self (by decide : (95:Nat) ∈ pys ("special_")) h,
      pyReplace_eq_self (by decide : (95:Nat) ∈ pys ("is_")) h,
      pyReplace_eq_self (by decide : (95:Nat) ∈ pys ("_")) h]

/-- C9: the display-name normalizer `gameStringToRead` is total and
deterministic — it is a pure function of its input alone, independent of any
registry state — and for every input it equals the spec-side description:
the fixed ordered marker list applied once front-to-back non-recursively,
then underscores replaced by spaces, then lower-casing and capitalization of
the first letter. -/
theorem C9_theorem : ∀ s : PyStr, gameStringToRead s = toDisplaySpec s := by
  intro s
  simp only [toDisplaySpec, markerList, List.foldl_cons, List.foldl_nil, gameStringToRead]

/-- C10: the display-name normalizer is idempotent: a second application
changes nothing, because the first application removes every underscore (so
no underscore-bearing marker can match again) and lower-then-capitalize is
idempotent. -/
theorem C10_theorem : ∀ s : PyStr,
    gameStringToRead (gameStringToRead s) = gameStringToRead s := by
  intro s
  rw [gameStringToRead_of_no_underscore (gameStringToRead_no_underscore s)]
  simp only [gameStringToRead]
  exact lowcap_idem _

/-! ## C5: trait lookup on an out-of-range index -/

/-- C5 (amended): called with a zero-based trait index outside the range of
the line-indexed lookup table, `getTrait` does not fail at all: the line
lookup silently returns the empty string (as `linecache.getline` does) and
the normalizer maps it to the empty string, which is then used as the trait
name — there is no hard failure and no condition distinguishable from an
empty name. -/
theorem C5_theorem : ∀ (table : List PyStr) (n : Nat),
    table.length ≤ n → getTrait table n = [] := by
  intro table n h
  unfold getTrait pyGetline
  rw [if_neg (by omega)]
  rfl

/-- Witness for C5: the two-line table read at index 5. -/
theorem C5_witness : getTrait tableC5 5 = [] := C5_theorem tableC5 5 (by decide)

/-- C5 counterexample: for the concrete two-line table and the out-of-range
index 5, `getTrait` silently returns the empty string — it does not fail
hard, contradicting the claim that an out-of-range index is surfaced as an
error and never masked by an empty value.  (An in-range index yields the
normalized line, trailing newline included.) -/
theorem C5_counterexample :
    tableC5.length ≤ 5 ∧ getTrait tableC5 5 = [] ∧
      getTrait tableC5 0 = pys ("Brave\n") := by decide

/-! ## C6: bracketed-list token stripping -/

/-- Tokens joined by single spaces, the inner shape of a serialized list. -/
def spaceJoin : List PyStr → PyStr
  | [] => []
  | [t] => t
  | t :: ts => t ++ 32 :: spaceJoin ts

lemma pySplitChar_append_sep (sep : Nat) :
    ∀ (t r : PyStr), sep ∉ t →
      pySplitChar sep (t ++ sep :: r) = t :: pySplitChar sep r := by
  intro t
  induction t with
  | nil => intro r _; simp [pySplitChar]
  | cons c t' ih =>
    intro r hs
    have hc : ¬ c = sep := fun h => hs (h ▸ List.mem_cons_self c t')
    have ht' : sep ∉ t' := fun h => hs (List.mem_cons_of_mem _ h)
    show pySplitChar sep (c :: (t' ++ sep :: r)) = _
    simp only [pySplitChar, if_neg hc, ih r ht']

lemma pySplitChar_spaceJoin :
    ∀ (ts : List PyStr), ts ≠ [] → (∀ t ∈ ts, (32 : Nat) ∉ t) →
      pySplitChar 32 (spaceJoin ts ++ [32]) = ts ++ [[]] := by
  intro ts
  induction ts with
  | nil => intro h; exact absurd rfl h
  | cons t ts' ih =>
    intro _ hst
    cases ts' with
    | nil =>
      have := pySplitChar_append_sep 32 t [] (hst t (List.mem_cons_self t []))
      simpa [spaceJoin, pySplitChar] using this
    | cons t2 ts'' =>
      have hjoin : spaceJoin (t :: t2 :: ts'') ++ [32]
          = t ++ 32 :: (spaceJoin (t2 :: ts'') ++ [32]) := by
        simp [spaceJoin]
      rw [hjoin, pySplitChar_append_sep 32 t _ (hst t (List.mem_cons_self t _)),
        ih (by simp) (fun x hx => hst x (List.mem_cons_of_mem _ hx))]
      simp

/-- C6 (amended): for a serialized bracketed list whose text between the
braces is a space, the space-joined tokens, and a space, the `[1:-1]`
extraction used for traditions, traits, children, domain, kills, vassal
contracts, former spouses, historical leaders and memories yields exactly
the token list — the first and last (empty) tokens of the space-split are
dropped and no real token is lost.  The skills field is the exception: the
source splits it without dropping (line 328), so its extraction keeps the
leading and trailing empty tokens, as the concrete conjunct shows. -/
theorem C6_theorem :
    (∀ (ts : List PyStr), ts ≠ [] → (∀ t ∈ ts, (32 : Nat) ∉ t) →
      dropEnds (pySplitChar 32 (32 :: (spaceJoin ts ++ [32]))) = ts) ∧
    ((resolveChar docC6 10 emptySt (pys ("110")) 1).1.charHeap.getD 0 none).map
        (fun o => o.skills)
      = some [[], pys ("1"), pys ("2"), pys ("3"), []] := by
  constructor
  · intro ts hne hst
    have hstep : pySplitChar 32 (32 :: (spaceJoin ts ++ [32]))
        = [] :: pySplitChar 32 (spaceJoin ts ++ [32]) := by
      simp [pySplitChar]
    rw [hstep, pySplitChar_spaceJoin ts hne hst]
    simp [dropEnds]
  · decide

/-- Witness for C6: the three-token list ` a b c `. -/
theorem C6_witness :
    dropEnds (pySplitChar 32 (32 :: (spaceJoin [pys ("a"), pys ("b"), pys ("c")] ++ [32])))
      = [pys ("a"), pys ("b"), pys ("c")] :=
  C6_theorem.1 [pys ("a"), pys ("b"), pys ("c")] (by decide) (by decide)

/-- C6 counterexample: the skills list field of a character whose serialized
skill list is `{ 1 2 3 }` is extracted as five tokens with the empty leading
and trailing tokens kept, not as the three real tokens the claim requires
for every bracketed list field. -/
theorem C6_counterexample :
    ((resolveChar docC6 10 emptySt (pys ("110")) 1).1.charHeap.getD 0 none).map
        (fun o => o.skills)
      ≠ some [pys ("1"), pys ("2"), pys ("3")] := by decide

/-! ## C7: title display naming -/

/-- Title block with a `c_` key and no article, used for the C7 witness. -/
def blkC7plain : PyStr :=
  pys ("\nZ=\x7b\n\tkey=\x22c_foo\x22\n\tname=\x22Bar\x22\n\x7d")

/-- C7 (amended): title display naming is driven by substring containment,
not by key prefixes: with no `article` substring in the block, the key is
tested for `b_`, `c_`, `d_`, `k_`, `e_` *in that order* by containment, so a
key merely containing `c_` (and not `b_`) yields `County of` plus the base
name; and when the block contains an `article` substring the `article`
field's value prefixes the base name, overriding the rank logic entirely. -/
theorem C7_theorem (raw key base art : PyStr)
    (hname : (pyFindAllCap (pys ("name=\x22")) (pys ("\x22")) raw).head? = some base) :
    (pyContains (pys ("article")) raw = false →
      (pyFindAllCap (pys ("key=\x22")) (pys ("\x22")) raw).head? = some key →
      pyContains (pys ("b_")) key = false → pyContains (pys ("c_")) key = true →
      getTitleNameRaw raw = some (pys ("County of ") ++ base)) ∧
    (pyContains (pys ("article")) raw = true →
      (pyFindAllCap (pys ("article=\x22")) (pys ("\x22")) raw).head? = some art →
      getTitleNameRaw raw = some (art ++ base)) := by
  constructor
  · intro hart hkey hb hc
    simp [getTitleNameRaw, hname, hart, hkey, hb, hc]
  · intro hart hartv
    simp [getTitleNameRaw, hname, hart, hartv]

/-- Witness for C7: a `c_foo` key with no article yields `County of Bar`; an
explicit article yields `The Bar`. -/
theorem C7_witness :
    getTitleNameRaw blkC7plain = some (pys ("County of Bar")) ∧
      getTitleNameRaw blkC7art = some (pys ("The Bar")) :=
  ⟨(C7_theorem blkC7plain (pys ("c_foo")) (pys ("Bar")) [] (by decide)).1
      (by decide) (by decide) (by decide) (by decide),
   (C7_theorem blkC7art (pys ("c_foo")) (pys ("Bar")) (pys ("The ")) (by decide)).2
      (by decide) (by decide)⟩

/-- C7 counterexample: the title `X` has key `c_ab_d`, which *starts with*
`c_`, and its block has no article field, yet the derived display name is
`Barony of Test`, not `County of Test`: the source tests `'b_' in key`
first, by substring containment, and `c_ab_d` contains `b_`. -/
theorem C7_counterexample :
    (pys ("c_")).isPrefixOf (pys ("c_ab_d")) = true ∧
      pyContains (pys ("article")) blkC7 = false ∧
      (pyFindAllCap (pys ("key=\x22")) (pys ("\x22")) blkC7).head? = some (pys ("c_ab_d")) ∧
      getTitleName docC7 (pys ("X")) = some (pys ("Barony of Test")) ∧
      getTitleName docC7 (pys ("X")) ≠ some (pys ("County of Test")) := by decide

/-! ## C8: anchored block-locator scanning -/

/-- Candidate block for id 7 without the house anchor. -/
def blkNoAnchor : PyStr := pys ("\n7=\x7b\n\tother=1\n\x7d")

/-- Candidate block for id 7 with the house anchor `dynasty=`. -/
def blkHouse7 : PyStr := pys ("\n7=\x7b\n\tname=\x22Karling\x22\n\tdynasty=9\n\x7d")

/-- Document whose id-7 candidate list has a non-matching block first. -/
def docC8 : Doc :=
  { emptyDoc with
    blockCands := fun id => if id = pys ("7") then [blkNoAnchor, blkHouse7] else [] }

lemma find?_first {α : Type} {p : α → Bool} :
    ∀ {l : List α} {b : α}, l.find? p = some b →
      ∃ i, l.get? i = some b ∧
        ∀ j, j < i → ∀ x, l.get? j = some x → p x = false := by
  intro l
  induction l with
  | nil => intro b h; simp [List.find?] at h
  | cons a t ih =>
    intro b h
    by_cases hpa : p a
    · rw [List.find?_cons_of_pos _ hpa] at h
      obtain rfl : a = b := by injection h
      exact ⟨0, rfl, fun j hj => absurd hj (by omega)⟩
    · rw [List.find?_cons_of_neg _ hpa] at h
      obtain ⟨i, hget, hprev⟩ := ih h
      refine ⟨i + 1, by simpa using hget, fun j hj x hx => ?_⟩
      cases j with
      | zero =>
        obtain rfl : a = x := by simpa using hx
        simpa using hpa
      | succ j' => exact hprev j' (by omega) x (by simpa using hx)

/-- C8: `findHouseData` and `findDynastyData` scan the id's candidate blocks
in document order and return the first one containing the kind-specific
anchor (`dynasty=` for houses, `prestige=` for dynasties); whenever no
candidate contains the anchor they fail (the index in the source runs past
the end of the match list) rather than returning a non-matching block. -/
theorem C8_theorem : ∀ (doc : Doc) (dynid : PyStr),
    (∀ b, findHouseData doc dynid = some b →
      pyContains (pys ("dynasty=")) b = true ∧
      ∃ i, (doc.blockCands dynid).get? i = some b ∧
        ∀ j, j < i → ∀ x, (doc.blockCands dynid).get? j = some x →
          pyContains (pys ("dynasty=")) x = false) ∧
    ((∀ b ∈ doc.blockCands dynid, pyContains (pys ("dynasty=")) b = false) →
      findHouseData doc dynid = none) ∧
    (∀ b, findDynastyData doc dynid = some b →
      pyContains (pys ("prestige=")) b = true ∧
      ∃ i, (doc.blockCands dynid).get? i = some b ∧
        ∀ j, j < i → ∀ x, (doc.blockCands dynid).get? j = some x →
          pyContains (pys ("prestige=")) x = false) ∧
    ((∀ b ∈ doc.blockCands dynid, pyContains (pys ("prestige=")) b = false) →
      findDynastyData doc dynid = none) := by
  intro doc dynid
  refine ⟨fun b h => ⟨List.find?_some h, find?_first h⟩, fun hall => ?_,
    fun b h => ⟨List.find?_some h, find?_first h⟩, fun hall => ?_⟩
  · exact List.find?_eq_none.mpr (fun x hx => by simp [hall x hx])
  · exact List.find?_eq_none.mpr (fun x hx => by simp [hall x hx])

/-- Witness for C8: on the two-candidate document the house locator skips
the anchorless first block and returns the second, which contains the
anchor. -/
theorem C8_witness :
    findHouseData docC8 (pys ("7")) = some blkHouse7 ∧
      pyContains (pys ("dynasty=")) blkHouse7 = true := by
  refine ⟨by decide, ?_⟩
  exact ((C8_theorem docC8 (pys ("7"))).1 blkHouse7 (by decide)).1

/-! ## C1: one object per identifier -/

/-- Number of constructed character objects carrying the given id. -/
def charObjsWithId (st : St) (cid : PyStr) : Nat :=
  ((st.charHeap.filterMap (fun o => o)).filter (fun o => o.charid == cid)).length

/-- C1 (amended): resolution paths that consult the registry are idempotent —
`findLinkedChars` resolving the same already-registered id twice embeds the
very same object (the same heap reference) both times, and `getChrNameOrObj`
returns the registered object — but the lineage-entry path constructs a
fresh character object unconditionally without consulting the registry, so
a lineage whose two historical entries reference the same character id
builds two distinct character objects for that one id, re-registering the
second over the first. -/
theorem C1_theorem (doc : Doc) (reschar : St → PyStr → Nat → St × Option Nat) (st : St)
    (cid cd : PyStr) (r limit : Nat)
    (hknown : regGet st.knownChars cid = some r) (hcd : findCharData doc cid = some cd)
    (hlim : 0 < limit) :
    linkedCharsGo doc reschar limit st [cid, cid] = (st, [RefOr.ref r, RefOr.ref r]) ∧
    getChrNameOrObj doc st cid = some (RefOr.ref r) ∧
    charObjsWithId (lineageGo docC1 10 1 emptySt [entryC1, entryC1]).1 (pys ("100")) = 2 := by
  refine ⟨?_, ?_, by decide⟩
  · simp [linkedCharsGo, hcd, hknown, hlim]
  · simp [getChrNameOrObj, hknown]

/-- A state in which character 100 is registered as heap index 0. -/
def stC1w : St := { emptySt with charHeap := [none], knownChars := [(pys ("100"), 0)] }

/-- Witness for C1: resolving the registered id 100 twice through the linked
loop embeds heap reference 0 twice. -/
theorem C1_witness :
    linkedCharsGo docC1 (fun s _ _ => (s, none)) 1 stC1w [pys ("100"), pys ("100")]
      = (stC1w, [RefOr.ref 0, RefOr.ref 0]) :=
  (C1_theorem docC1 (fun s _ _ => (s, none)) stC1w (pys ("100")) blkC1 0 1
    (by decide) (by decide) (by decide)).1

/-- C1 counterexample: processing a lineage whose two entries both reference
character 100 leaves *two* constructed character objects with id 100 in the
heap — the claimed at-most-one-object-per-identifier invariant is violated
by the lineage path, which never consults the registry. -/
theorem C1_counterexample :
    ¬ charObjsWithId (lineageGo docC1 10 1 emptySt [entryC1, entryC1]).1 (pys ("100")) ≤ 1 := by
  decide

/-! ## C2: termination on cyclic reference graphs -/

/-- The id of the self-parent culture in `docCyc`. -/
def idcA : PyStr := pys ("cA")

/-- The captured parent-list text of the self-parent culture. -/
def capPar : PyStr := pys (" cA ")

/-- Resolving the culture that appears in its own parents list never ends:
`gCulture` adds itself to `knownCuls` only *after* recursing into its
parents, so the registry check that breaks cycles elsewhere never fires, and
every recursion level re-resolves the same culture (in Python, until
`RecursionError`; here, `none` at every fuel with the state unchanged). -/
lemma cultureCycleNone : ∀ fuel : Nat,
    resolveCulture docCyc fuel emptySt idcA = (emptySt, none) := by
  intro fuel
  induction fuel with
  | zero => rfl
  | succ n ih =>
    have e1 : (docCyc.culCands idcA).head? = some blkCulA := by decide
    have e2 : (pyFindAllCap (pys ("name=\x22")) (pys ("\x22")) blkCulA).head?
        = some (pys ("akan")) := by decide
    have e3 : (pyFindAllCap (pys ("ethos=\x22")) (pys ("\x22")) blkCulA).head?
        = some (pys ("ethos_bellicose")) := by decide
    have e4 : (pyFindAllCap (pys ("heritage=\x22")) (pys ("\x22")) blkCulA).head?
        = some (pys ("heritage_x")) := by decide
    have e5 : (pyFindAllCap (pys ("language=\x22")) (pys ("\x22")) blkCulA).head?
        = some (pys ("language_x")) := by decide
    have e6 : (pyFindAllCap (pys ("parents=\x7b")) (pys ("\x7d")) blkCulA).head?
        = some capPar := by decide
    have e7 : dropEnds (pySplitChar 32 capPar) = [idcA] := by decide
    have e8 : regGet emptySt.knownCuls idcA = none := by decide
    have e8x : regGet emptySt.knownCuls ['c'.toNat, 'A'.toNat] = none := e8
    have ihx : resolveCulture docCyc n emptySt ['c'.toNat, 'A'.toNat] = (emptySt, none) := ih
    simp only [resolveCulture, culParentsGo, e1, e2, e3, e4, e5, e6, e7, e8, e8x, ih, ihx]

/-- C2 (amended): character resolution and title resolution terminate on
documents with genuine reference cycles, because `gChar` and `gTitle`
register themselves *before* recursing into their relations: two characters
who are each other's vassals resolve to two distinct, fully populated
objects holding references to each other, and likewise two titles that are
each other's de jure liege and vassal.  Culture resolution, however,
registers itself only *after* recursing into its parents, so a culture
appearing in its own parents' ancestry never terminates: it yields no result
at any fuel. -/
theorem C2_theorem :
    ((resolveChar docCyc 10 emptySt (pys ("200")) 2).2 = some 0 ∧
      ((resolveChar docCyc 10 emptySt (pys ("200")) 2).1.charHeap.getD 0 none).map
          (fun o => (o.charid, o.vassals))
        = some (pys ("200"), some [RefOr.ref 1]) ∧
      ((resolveChar docCyc 10 emptySt (pys ("200")) 2).1.charHeap.getD 1 none).map
          (fun o => (o.charid, o.vassals))
        = some (pys ("201"), some [RefOr.ref 0])) ∧
    ((resolveTitle docCyc 10 emptySt (pys ("T1")) true true).2 = some 0 ∧
      ((resolveTitle docCyc 10 emptySt (pys ("T1")) true true).1.titleHeap.getD 0 none).map
          (fun o => (o.name, o.de_jure, o.vassals))
        = some (pys ("Duchy of One"), some (RefOr.ref 1), some [RefOr.ref 1]) ∧
      ((resolveTitle docCyc 10 emptySt (pys ("T1")) true true).1.titleHeap.getD 1 none).map
          (fun o => (o.name, o.de_jure, o.vassals))
        = some (pys ("County of Two"), some (RefOr.ref 0), some [RefOr.ref 0])) ∧
    (∀ fuel : Nat, resolveCulture docCyc fuel emptySt (pys ("cA")) = (emptySt, none)) := by
  refine ⟨by decide, by decide, fun fuel => cultureCycleNone fuel⟩

/-- C2 counterexample: the claim includes cultures appearing in their own
parents' ancestry, but resolving the self-parent culture `cA` terminates at
no fuel whatsoever — the model of an infinite recursion. -/
theorem C2_counterexample :
    ¬ ∃ fuel : Nat, (resolveCulture docCyc fuel emptySt (pys ("cA"))).2.isSome = true := by
  rintro ⟨fuel, h⟩
  have h' : (resolveCulture docCyc fuel emptySt idcA).2.isSome = true := h
  rw [cultureCycleNone fuel] at h'
  simp at h'

/-! ## C3: the depth budget on fan-out relations -/

/-- With an exhausted depth budget, `findLinkedChars` produces exactly the
display names: every id whose block is found and carries a first name yields
a name-only entry, the rest are skipped, and the state is untouched — the
character factory is never invoked. -/
lemma linkedCharsGo_zero (doc : Doc) (reschar : St → PyStr → Nat → St × Option Nat) :
    ∀ (ids : List PyStr) (st : St),
      linkedCharsGo doc reschar 0 st ids =
        (st, ids.filterMap (fun c =>
          (findCharData doc c).bind (fun cd =>
            ((pyFindAllCap (pys ("first_name=\x22")) (pys ("\x22")) cd).head?).map
              (fun n => RefOr.txt (gameStringToRead (pyReplace n (pys ("_")) [])))))) := by
  intro ids
  induction ids with
  | nil => intro st; rfl
  | cons c rest ih =>
    intro st
    simp only [linkedCharsGo, List.filterMap_cons]
    cases h : findCharData doc c with
    | none => simp [h, ih st]
    | some cd =>
      simp only [h, Option.some_bind, gt_iff_lt, Nat.lt_irrefl, if_false]
      cases hn : (pyFindAllCap (pys ("first_name=\x22")) (pys ("\x22")) cd).head? with
      | none => simp [hn, ih st]
      | some n => simp [hn, ih st]

/-- C3 (amended): the spouse, former-spouse and child lists go through
`findLinkedChars`, which with budget `0` degrades every member to a
name-only reference (first conjunct, for every document and id list) and
with a positive budget resolves members fully at budget minus one (third
conjunct, concretely).  The kill and vassal lists behave differently at
budget `0`: their processing is guarded by `limit > 0`, so the attributes
are *omitted entirely* rather than produced as name-only references (second
conjunct). -/
theorem C3_theorem :
    (∀ (doc : Doc) (reschar : St → PyStr → Nat → St × Option Nat)
        (ids : List PyStr) (st : St),
      linkedCharsGo doc reschar 0 st ids =
        (st, ids.filterMap (fun c =>
          (findCharData doc c).bind (fun cd =>
            ((pyFindAllCap (pys ("first_name=\x22")) (pys ("\x22")) cd).head?).map
              (fun n => RefOr.txt (gameStringToRead (pyReplace n (pys ("_")) []))))))) ∧
    ((resolveChar docC3 10 emptySt (pys ("100")) 0).2 = some 0 ∧
      ((resolveChar docC3 10 emptySt (pys ("100")) 0).1.charHeap.getD 0 none).map
          (fun o => (o.spouses, o.kills, o.vassals))
        = some (some [RefOr.txt (pys ("Wena"))], none, none)) ∧
    ((resolveChar docC3 10 emptySt (pys ("100")) 1).2 = some 0 ∧
      ((resolveChar docC3 10 emptySt (pys ("100")) 1).1.charHeap.getD 0 none).map
          (fun o => (o.spouses, o.kills, o.vassals))
        = some (some [RefOr.ref 1], some [RefOr.ref 2], some [RefOr.ref 3])) :=
  ⟨linkedCharsGo_zero, by decide, by decide⟩

/-- C3 counterexample: with depth budget `0`, the kill list and the vassal
list of character 100 are not produced as name-only references — they are
omitted outright (`none`), although the referenced character blocks exist in
the document; the claim requires name-only references for *every* unbounded
fan-out relation. -/
theorem C3_counterexample :
    ((resolveChar docC3 10 emptySt (pys ("100")) 0).1.charHeap.getD 0 none).map
        (fun o => (o.kills, o.vassals)) = some (none, none) ∧
      (resolveChar docC3 10 emptySt (pys ("100")) 0).2 = some 0 ∧
      findCharData docC3 (pys ("300")) ≠ none ∧
      findVassal docC3 (pys ("c1")) = some (pys ("400")) := by decide

/-! ## C4: isolation of sibling failures -/

/-- `findLinkedChars` processes a concatenation of id lists exactly as the
two lists in sequence: every member is attempted independently of its
siblings (the loop never aborts — each failure only skips or degrades the
one member). -/
lemma linkedCharsGo_append (doc : Doc) (reschar : St → PyStr → Nat → St × Option Nat)
    (limit : Nat) :
    ∀ (ids1 ids2 : List PyStr) (st : St),
      linkedCharsGo doc reschar limit st (ids1 ++ ids2) =
        ((linkedCharsGo doc reschar limit
            (linkedCharsGo doc reschar limit st ids1).1 ids2).1,
         (linkedCharsGo doc reschar limit st ids1).2 ++
           (linkedCharsGo doc reschar limit
             (linkedCharsGo doc reschar limit st ids1).1 ids2).2) := by
  intro ids1
  induction ids1 with
  | nil => intro ids2 st; simp [linkedCharsGo]
  | cons c rest ih =>
    intro ids2 st
    simp only [List.cons_append, linkedCharsGo]
    cases h : findCharData doc c with
    | none => simp [h, ih]
    | some cd =>
      simp only [h]
      by_cases hl : limit > 0
      · simp only [if_pos hl]
        cases hk : regGet st.knownChars c with
        | some r => simp [hk, ih]
        | none =>
          simp only [hk]
          cases hr : reschar st c (limit - 1) with
          | mk st1 res =>
            cases res with
            | some i => simp [ih]
            | none =>
              cases hn : (pyFindAllCap (pys ("first_name=\x22")) (pys ("\x22")) cd).head? with
              | none => simp [hn, ih]
              | some n => simp [hn, ih]
      · simp only [if_neg hl]
        cases hn : (pyFindAllCap (pys ("first_name=\x22")) (pys ("\x22")) cd).head? with
        | none => simp [hn, ih]
        | some n => simp [hn, ih]

/-- C4 (amended): spouse/former-spouse/child members are isolated — the
linked-characters loop processes every member independently and never fails
as a whole (first conjunct) — and a failing vassal contract is skipped while
its siblings are still resolved (second conjunct: contract `c9` is missing,
yet spouse 301 and vassal 302 are resolved).  Kill members are *not*
isolated: the kill loop has no per-member exception handling, so one
unresolvable kill aborts the entire character resolution (third conjunct). -/
theorem C4_theorem :
    (∀ (doc : Doc) (reschar : St → PyStr → Nat → St × Option Nat) (limit : Nat)
        (ids1 ids2 : List PyStr) (st : St),
      linkedCharsGo doc reschar limit st (ids1 ++ ids2) =
        ((linkedCharsGo doc reschar limit
            (linkedCharsGo doc reschar limit st ids1).1 ids2).1,
         (linkedCharsGo doc reschar limit st ids1).2 ++
           (linkedCharsGo doc reschar limit
             (linkedCharsGo doc reschar limit st ids1).1 ids2).2)) ∧
    ((resolveChar docC4 10 emptySt (pys ("150")) 1).2 = some 0 ∧
      ((resolveChar docC4 10 emptySt (pys ("150")) 1).1.charHeap.getD 0 none).map
          (fun o => (o.spouses, o.vassals))
        = some (some [RefOr.ref 1], some [RefOr.ref 2])) ∧
    (resolveChar docC4 10 emptySt (pys ("100")) 1).2 = none :=
  ⟨linkedCharsGo_append, by decide, by decide⟩

/-- C4 counterexample: character 100's kill list names the missing character
999 before the present character 301; the failure on 999 aborts the whole
character — `resolveChar` yields no object — and the sibling kill 301 is
never resolved, although its block exists, contradicting the claim that a
failure on one member never aborts resolution of the other members. -/
theorem C4_counterexample :
    (resolveChar docC4 10 emptySt (pys ("100")) 1).2 = none ∧
      regGet (resolveChar docC4 10 emptySt (pys ("100")) 1).1.knownChars (pys ("301")) = none ∧
      findCharData docC4 (pys ("301")) ≠ none := by decide

/-! ## Remaining witnesses -/

/-- Witness for C2: the self-parent culture yields nothing at fuel 3. -/
theorem C2_witness : resolveCulture docCyc 3 emptySt (pys ("cA")) = (emptySt, none) :=
  C2_theorem.2.2 3

/-- Witness for C3: the budget-zero linked-characters loop on a present and
a missing id yields one name-only entry and no state change. -/
theorem C3_witness :
    linkedCharsGo docC3 (fun s _ _ => (s, none)) 0 emptySt [pys ("200"), pys ("999")]
      = (emptySt, [RefOr.txt (pys ("Wena"))]) :=
  (C3_theorem.1 docC3 (fun s _ _ => (s, none)) [pys ("200"), pys ("999")] emptySt).trans
    (by decide)

/-- Witness for C4: splitting the member list splits the processing. -/
theorem C4_witness :
    linkedCharsGo docC4 (fun s _ _ => (s, none)) 0 emptySt ([pys ("301")] ++ [pys ("302")])
      = (emptySt, [RefOr.txt (pys ("John")), RefOr.txt (pys ("Hugh"))]) :=
  (C4_theorem.1 docC4 (fun s _ _ => (s, none)) 0 [pys ("301")] [pys ("302")] emptySt).trans
    (by decide)

/-- Witness for C9: the spec's own example token. -/
theorem C9_witness :
    gameStringToRead (pys ("tenet_pacifism_2")) = toDisplaySpec (pys ("tenet_pacifism_2")) :=
  C9_theorem (pys ("tenet_pacifism_2"))

/-- Witness for C10: idempotence at the spec's example token. -/
theorem C10_witness :
    gameStringToRead (gameStringToRead (pys ("tenet_pacifism_2")))
      = gameStringToRead (pys ("tenet_pacifism_2")) :=
  C10_theorem (pys ("tenet_pacifism_2"))
